import Mathlib

/-!
Verification of the POSALE client-side state-management layer.

This file gives a shallow embedding of the `StateManager` class
(`src/unnamed/part_007`), the `BaseView` lifecycle
(`src/public/assets/js/views/BaseView.js`) and the auto-hide logic of
`NotificationSystem` (`src/public/assets/js/components/Notification.js`),
together with theorems settling the specification claims about them.

JavaScript values are modelled by the inductive type `JVal` (numbers are
modelled as integers; the claims under study do not depend on
floating-point behaviour).  Mutable objects become explicit state passing;
side effects (subscriber invocations, persistence writes) are reified as
an event trace returned alongside the new state.
-/

set_option maxHeartbeats 1000000

/-- A JavaScript value: `undefined`, `null`, booleans, numbers (modelled as
integers), strings, arrays and plain objects (ordered field lists). -/
inductive JVal where
  | undefined : JVal
  | null : JVal
  | bool : Bool → JVal
  | num : Int → JVal
  | str : String → JVal
  | arr : List JVal → JVal
  | obj : List (String × JVal) → JVal
deriving Repr

/-- JavaScript `typeof`.  Note the classic quirk `typeof null === "object"`. -/
def jsTypeof : JVal → String
  | .undefined => "undefined"
  | .null => "object"
  | .bool _ => "boolean"
  | .num _ => "number"
  | .str _ => "string"
  | .arr _ => "object"
  | .obj _ => "object"

/-- JavaScript strict equality `===`.  Primitives compare by value; arrays
and objects compare by reference, so two separately constructed (hence
distinct) objects are never `===` — the model takes object values to denote
fresh objects, which is the situation the deep-equality claims are about. -/
def jsStrictEq : JVal → JVal → Bool
  | .undefined, .undefined => true
  | .null, .null => true
  | .bool a, .bool b => a == b
  | .num a, .num b => a == b
  | .str a, .str b => a == b
  | _, _ => false

/-- JavaScript loose comparison `x == null`, true exactly for `null` and
`undefined`. -/
def jsLooseNull : JVal → Bool
  | .undefined => true
  | .null => true
  | _ => false

/-- JavaScript `Array.isArray`. -/
def jsIsArray : JVal → Bool
  | .arr _ => true
  | _ => false

/-- Read a property from an association list of fields; a missing property
reads as `undefined` (JavaScript member access semantics). -/
def jsGet (fields : List (String × JVal)) (k : String) : JVal :=
  match fields.find? (fun p => p.1 == k) with
  | some p => p.2
  | none => .undefined

/-- Generic association-list read with an explicit default. -/
def jsGetD {κ α : Type} [BEq κ] (fields : List (κ × α)) (k : κ) (d : α) : α :=
  match fields.find? (fun p => p.1 == k) with
  | some p => p.2
  | none => d

/-- JavaScript `key in object`. -/
def jsHas {κ α : Type} [BEq κ] (fields : List (κ × α)) (k : κ) : Bool :=
  fields.any (fun p => p.1 == k)

/-- JavaScript property assignment `obj[k] = v`: overwrite in place if the
key exists (object key order is preserved on overwrite), otherwise append. -/
def jsSet {κ α : Type} [BEq κ] (fields : List (κ × α)) (k : κ) (v : α) :
    List (κ × α) :=
  if jsHas fields k then
    fields.map (fun p => if p.1 == k then (k, v) else p)
  else fields ++ [(k, v)]

/-- JavaScript `delete obj[k]`. -/
def jsDelete {κ α : Type} [BEq κ] (fields : List (κ × α)) (k : κ) :
    List (κ × α) :=
  fields.filter (fun p => !(p.1 == k))

mutual
/-- `StateManager.deepEqual` (part_007 lines 439-461), translated clause by
clause: strict equality first, then the `== null` guard, the `typeof`
comparison, the primitive fallback `a === b`, the `Array.isArray`
agreement check, and finally the key-set comparison with recursive calls.
The `for (let key of keysA)` loop with early `return false` is the
conjunction `deepEqualFields`; for arrays, `Object.keys` enumerates the
indices, so the key loop amounts to a length check plus an element-wise
recursion (`deepEqualList`). -/
def deepEqual : JVal → JVal → Bool
  | a, b =>
    if jsStrictEq a b then true
    else if jsLooseNull a || jsLooseNull b then false
    else if jsTypeof a != jsTypeof b then false
    else if jsTypeof a != "object" then jsStrictEq a b
    else
      match a, b with
      | .arr xs, .arr ys => xs.length == ys.length && deepEqualList xs ys
      | .obj fa, .obj fb => fa.length == fb.length && deepEqualFields fa fb
      | _, _ => false

/-- Element-wise deep equality of two arrays (of equal length). -/
def deepEqualList : List JVal → List JVal → Bool
  | [], _ => true
  | _ :: _, [] => false
  | x :: xs, y :: ys => deepEqual x y && deepEqualList xs ys

/-- The `for (let key of keysA)` loop of `deepEqual`: every key of `a` must
be a key of `b` and the corresponding values must be deep-equal. -/
def deepEqualFields : List (String × JVal) → List (String × JVal) → Bool
  | [], _ => true
  | kv :: rest, fb =>
    (fb.map Prod.fst).contains kv.1 && deepEqual kv.2 (jsGet fb kv.1) &&
      deepEqualFields rest fb
end

example : deepEqual (.obj [("id", .num 1)]) (.obj [("id", .num 1)]) = true := by
  decide

example : deepEqual (.obj [("id", .num 1)]) (.obj [("id", .num 2)]) = false := by
  decide

example : deepEqual .null .undefined = false := by decide

/-! ## Platform model: `JSON.stringify` / `JSON.parse` and `localStorage`

`StateManager` persists values through the browser's `localStorage`
(string-valued key/value store) after `JSON.stringify`, and parses with
`JSON.parse` on load.  These are host builtins, modelled here: `stringify`
follows the JSON.stringify semantics on `JVal` (top-level `undefined`
serializes to no output; `undefined` array elements print as `null`;
`undefined`-valued object fields are dropped), and `parseJson` is a
fuel-bounded recursive-descent reader returning `none` on malformed input
(`JSON.parse` throwing). -/

/-- Escape one character for a JSON string literal (quote, backslash and
the common control characters). -/
def escapeChar (c : Char) : String :=
  if c = '"' then "\\\""
  else if c = '\\' then "\\\\"
  else if c = '\n' then "\\n"
  else if c = '\t' then "\\t"
  else if c = '\r' then "\\r"
  else String.singleton c

/-- JSON encoding of a string. -/
def encodeString (s : String) : String :=
  "\"" ++ String.join (s.toList.map escapeChar) ++ "\""

mutual
/-- `JSON.stringify`: `none` models the JavaScript result `undefined`
(unserializable top-level value). -/
def stringifyVal : JVal → Option String
  | .undefined => none
  | .null => some "null"
  | .bool b => some (if b then "true" else "false")
  | .num n => some (toString n)
  | .str s => some (encodeString s)
  | .arr xs =>
    some ("[" ++ String.intercalate "," (stringifyArr xs) ++ "]")
  | .obj fs =>
    some ("\x7b" ++ String.intercalate "," (stringifyFields fs) ++ "\x7d")

/-- Array elements: an unserializable element prints as `null`. -/
def stringifyArr : List JVal → List String
  | [] => []
  | v :: rest => ((stringifyVal v).getD "null") :: stringifyArr rest

/-- Object fields: fields whose value is unserializable are dropped. -/
def stringifyFields : List (String × JVal) → List String
  | [] => []
  | (k, v) :: rest =>
    match stringifyVal v with
    | none => stringifyFields rest
    | some sv => (encodeString k ++ ":" ++ sv) :: stringifyFields rest
end

/-- Opening brace character (written via its code point). -/
def lbrace : Char := Char.ofNat 123

/-- Closing brace character (written via its code point). -/
def rbrace : Char := Char.ofNat 125

/-- Skip JSON insignificant whitespace. -/
def skipWs : List Char → List Char
  | c :: rest =>
    if c = ' ' ∨ c = '\n' ∨ c = '\t' ∨ c = '\r' then skipWs rest
    else c :: rest
  | [] => []

/-- Parse a decimal digit run; returns the digits and the rest. -/
def takeDigits : List Char → List Char × List Char
  | c :: rest =>
    if c.isDigit then
      let r := takeDigits rest
      (c :: r.1, r.2)
    else ([], c :: rest)
  | [] => ([], [])

/-- Numeric value of a digit list. -/
def digitsToNat : List Char → Nat
  | [] => 0
  | ds => ds.foldl (fun acc c => acc * 10 + (c.toNat - '0'.toNat)) 0

/-- Parse the body of a JSON string literal (after the opening quote),
decoding the escapes `escapeChar` can produce. -/
def parseStringBody : Nat → List Char → Option (String × List Char)
  | 0, _ => none
  | _, [] => none
  | fuel + 1, c :: rest =>
    if c = '"' then some ("", rest)
    else if c = '\\' then
      match rest with
      | [] => none
      | e :: rest2 =>
        let dec : Option Char :=
          if e = '"' then some '"'
          else if e = '\\' then some '\\'
          else if e = '/' then some '/'
          else if e = 'n' then some '\n'
          else if e = 't' then some '\t'
          else if e = 'r' then some '\r'
          else none
        match dec with
        | none => none
        | some ch =>
          match parseStringBody fuel rest2 with
          | none => none
          | some (s, rem) => some (String.singleton ch ++ s, rem)
    else
      match parseStringBody fuel rest with
      | none => none
      | some (s, rem) => some (String.singleton c ++ s, rem)

mutual
/-- Fuel-bounded JSON value reader. -/
def parseVal : Nat → List Char → Option (JVal × List Char)
  | 0, _ => none
  | fuel + 1, cs =>
    match skipWs cs with
    | [] => none
    | c :: rest =>
      if c = 'n' then
        match rest with
        | 'u' :: 'l' :: 'l' :: rem => some (.null, rem)
        | _ => none
      else if c = 't' then
        match rest with
        | 'r' :: 'u' :: 'e' :: rem => some (.bool true, rem)
        | _ => none
      else if c = 'f' then
        match rest with
        | 'a' :: 'l' :: 's' :: 'e' :: rem => some (.bool false, rem)
        | _ => none
      else if c = '"' then
        match parseStringBody fuel rest with
        | none => none
        | some (s, rem) => some (.str s, rem)
      else if c = '-' then
        match takeDigits rest with
        | ([], _) => none
        | (ds, rem) => some (.num (-(digitsToNat ds : Int)), rem)
      else if c.isDigit then
        match takeDigits (c :: rest) with
        | ([], _) => none
        | (ds, rem) => some (.num (digitsToNat ds : Int), rem)
      else if c = '[' then
        match skipWs rest with
        | ']' :: rem => some (.arr [], rem)
        | cs2 =>
          match parseElems fuel cs2 with
          | none => none
          | some (vs, rem) => some (.arr vs, rem)
      else if c = lbrace then
        match skipWs rest with
        | c2 :: rem =>
          if c2 = rbrace then some (.obj [], rem)
          else
            match parseMembers fuel (c2 :: rem) with
            | none => none
            | some (fs, rem2) => some (.obj fs, rem2)
        | [] => none
      else none

/-- Comma-separated array elements, up to the closing bracket. -/
def parseElems : Nat → List Char → Option (List JVal × List Char)
  | 0, _ => none
  | fuel + 1, cs =>
    match parseVal fuel cs with
    | none => none
    | some (v, rem) =>
      match skipWs rem with
      | ',' :: rem2 =>
        match parseElems fuel rem2 with
        | none => none
        | some (vs, rem3) => some (v :: vs, rem3)
      | ']' :: rem2 => some ([v], rem2)
      | _ => none

/-- Comma-separated object members, up to the closing brace. -/
def parseMembers : Nat → List Char → Option (List (String × JVal) × List Char)
  | 0, _ => none
  | fuel + 1, cs =>
    match skipWs cs with
    | '"' :: rest =>
      match parseStringBody fuel rest with
      | none => none
      | some (k, rem) =>
        match skipWs rem with
        | ':' :: rem2 =>
          match parseVal fuel rem2 with
          | none => none
          | some (v, rem3) =>
            match skipWs rem3 with
            | ',' :: rem4 =>
              match parseMembers fuel rem4 with
              | none => none
              | some (fs, rem5) => some ((k, v) :: fs, rem5)
            | c :: rem4 =>
              if c = rbrace then some ([(k, v)], rem4) else none
            | [] => none
        | _ => none
    | _ => none
end

/-- `JSON.parse`: `none` models a thrown `SyntaxError`. -/
def parseJson (s : String) : Option JVal :=
  match parseVal (s.length + 1) s.toList with
  | none => none
  | some (v, rem) =>
    match skipWs rem with
    | [] => some v
    | _ => none

example : parseJson "\"dark\"" = some (.str "dark") := rfl
example : parseJson "undefined" = none := rfl

/-! ## The StateManager model (`src/unnamed/part_007`)

The mutable `StateManager` object becomes a record threaded through the
operations.  Subscriber callbacks are identified by numbers together with
a `throws` flag saying whether invoking them raises an exception (the only
behaviour of a callback the claims depend on); invoking a callback is
reified as an event in the operation's output trace, as are the
`localStorage` calls.  `Date.now()` is modelled by the monotone counter
`now`, bumped once per recorded history entry. -/

/-- A subscriber callback: its identity and whether calling it throws. -/
structure Cb where
  id : Nat
  throws : Bool
deriving Repr, DecidableEq

/-- One entry of the state-change history
(`{key, oldValue, newValue, timestamp}`). -/
structure HistoryEntry where
  key : String
  oldValue : JVal
  newValue : JVal
  timestamp : Nat
deriving Repr

/-- Observable side effects of a StateManager operation, in order:
`call` is an invocation of a per-key subscriber (with whether it threw —
the exception is caught and logged inside `notifySubscribers`), `callW`
an invocation of a wildcard (`'*'`) subscriber with the full-state
snapshot `getState()` passes it, and `storageSet`/`storageRemove` are the
`localStorage` writes. -/
inductive Ev where
  | call (cb : Nat) (threw : Bool) (key : String) (newValue oldValue : JVal)
  | callW (cb : Nat) (threw : Bool) (key : String) (newValue oldValue : JVal)
      (snapshot : List (String × JVal))
  | storageSet (storageKey : String) (value : String)
  | storageRemove (storageKey : String)
deriving Repr

/-- The `StateManager` instance.  `persistedKeys` is assigned only by
`setupAutoPersistence` (it is `undefined` straight out of the constructor
— see `StateManagerRaw` below for the construction/`init()` path); the
operations here model a manager on which `setupAutoPersistence` has run. -/
structure StateManager where
  state : List (String × JVal)
  subscribers : List (String × List Cb)
  history : List HistoryEntry
  maxHistorySize : Nat
  sensitiveKeys : List String
  persistedKeys : List String
  storage : List (String × String)
  now : Nat
deriving Repr

namespace StateManager

/-- The sensitive-key set installed by the constructor (part_007 line 19). -/
def constructorSensitiveKeys : List String :=
  ["user", "token", "cart", "currentSale"]

/-- The persisted-key set installed by `setupAutoPersistence`
(part_007 lines 321-326). -/
def setupPersistedKeys : List String :=
  ["theme", "language", "userPreferences", "uiState"]

/-- The subscriber list registered for a key (`this.subscribers[key]`,
empty when the key has no entry). -/
def subsFor (s : StateManager) (key : String) : List Cb :=
  jsGetD s.subscribers key []

/-- `notifySubscribers(key, newValue, oldValue)` (part_007 lines 156-177):
every callback registered for `key` is invoked with `(newValue, oldValue)`
inside a per-callback `try/catch`, so a throwing callback is logged and
iteration continues — each registered callback contributes exactly one
invocation record.  Then every `'*'` callback is invoked with
`(key, newValue, oldValue, this.getState())`; the snapshot is the state at
call time. -/
def notifySubscribers (s : StateManager) (key : String)
    (newValue oldValue : JVal) : List Ev :=
  (subsFor s key).map (fun cb => .call cb.id cb.throws key newValue oldValue)
    ++ (subsFor s "*").map
      (fun cb => .callW cb.id cb.throws key newValue oldValue s.state)

/-- `addToHistory(key, oldValue, newValue)` (part_007 lines 282-296):
unshift a `{key, oldValue, newValue, timestamp}` entry, then truncate to
`maxHistorySize` entries when the length exceeds it. -/
def addToHistory (s : StateManager) (key : String) (oldValue newValue : JVal) :
    StateManager :=
  let entry : HistoryEntry := ⟨key, oldValue, newValue, s.now⟩
  let h := entry :: s.history
  let h := if h.length > s.maxHistorySize then h.take s.maxHistorySize else h
  { s with history := h, now := s.now + 1 }

/-- `persistState(key, value)` (part_007 lines 335-342): write
`JSON.stringify(value)` under `pos_state_${key}`.  `setItem` coerces the
JavaScript `undefined` produced for an unserializable value to the string
`"undefined"`. -/
def persistState (s : StateManager) (key : String) (v : JVal) :
    StateManager × List Ev :=
  let storageKey := "pos_state_" ++ key
  let sv := (stringifyVal v).getD "undefined"
  ({ s with storage := jsSet s.storage storageKey sv },
    [.storageSet storageKey sv])

/-- `autoPersist(key, value)` (part_007 lines 329-333): persist exactly the
configured keys. -/
def autoPersist (s : StateManager) (key : String) (v : JVal) :
    StateManager × List Ev :=
  if s.persistedKeys.contains key then persistState s key v else (s, [])

/-- `removePersisted(key)` (part_007 lines 360-367):
`localStorage.removeItem('pos_state_' + key)`. -/
def removePersisted (s : StateManager) (key : String) :
    StateManager × List Ev :=
  let storageKey := "pos_state_" ++ key
  ({ s with storage := jsDelete s.storage storageKey },
    [.storageRemove storageKey])

/-- `getState(key)` for a single key (part_007 lines 68-70). -/
def getState (s : StateManager) (key : String) : JVal :=
  jsGet s.state key

/-- `hasState(key)` (part_007 lines 75-77). -/
def hasState (s : StateManager) (key : String) : Bool :=
  jsHas s.state key

/-- `setState(key, value)` (part_007 lines 40-63): read the old value; if
`deepEqual` to the new one, return immediately (no history entry, no
notification, no persistence); otherwise record history, assign the state
slot, notify subscribers (the wildcard snapshot already contains the new
value) and auto-persist. -/
def setState (s : StateManager) (key : String) (v : JVal) :
    StateManager × List Ev :=
  let oldValue := jsGet s.state key
  if deepEqual oldValue v then (s, [])
  else
    let s1 := addToHistory s key oldValue v
    let s2 := { s1 with state := jsSet s1.state key v }
    let evs := notifySubscribers s2 key v oldValue
    let r := autoPersist s2 key v
    (r.1, evs ++ r.2)

/-- `removeState(key)` (part_007 lines 82-102): absent key — return
immediately; otherwise delete the slot, record history (new value
`undefined`), notify, and remove the persisted copy. -/
def removeState (s : StateManager) (key : String) :
    StateManager × List Ev :=
  if !jsHas s.state key then (s, [])
  else
    let oldValue := jsGet s.state key
    let s1 := { s with state := jsDelete s.state key }
    let s2 := addToHistory s1 key oldValue .undefined
    let evs := notifySubscribers s2 key .undefined oldValue
    let r := removePersisted s2 key
    (r.1, evs ++ r.2)

/-- `batchUpdate(updates)` (part_007 lines 182-205): collect all old
values first, then apply every assignment together with its history entry
(no deep-equality check here, unlike `setState`), then run the
notify/auto-persist loop — so every wildcard snapshot already contains all
batched assignments. -/
def batchUpdate (s : StateManager) (updates : List (String × JVal)) :
    StateManager × List Ev :=
  let oldStates := updates.map (fun kv => (kv.1, jsGet s.state kv.1))
  let s1 := updates.foldl
    (fun acc kv =>
      addToHistory { acc with state := jsSet acc.state kv.1 kv.2 }
        kv.1 (jsGetD oldStates kv.1 .undefined) kv.2)
    s
  updates.foldl
    (fun acc kv =>
      ((autoPersist acc.1 kv.1 kv.2).1,
        acc.2 ++ notifySubscribers acc.1 kv.1 kv.2 (jsGetD oldStates kv.1 .undefined)
          ++ (autoPersist acc.1 kv.1 kv.2).2))
    (s1, ([] : List Ev))

/-- `clearSensitiveData()` (part_007 lines 239-261): walk the sensitive
keys, deleting each present one while remembering its old value; then
notify subscribers of each removal with `newValue = undefined`; then
remove the persisted copy of every sensitive key. -/
def clearSensitiveData (s : StateManager) : StateManager × List Ev :=
  let collected := s.sensitiveKeys.foldl
    (fun (acc : List (String × JVal) × List (String × JVal)) k =>
      if jsHas acc.1 k then (jsDelete acc.1 k, acc.2 ++ [(k, jsGet acc.1 k)])
      else acc)
    (s.state, [])
  let s1 := { s with state := collected.1 }
  let evs := collected.2.foldl
    (fun es kv => es ++ notifySubscribers s1 kv.1 .undefined kv.2) []
  s.sensitiveKeys.foldl
    (fun (acc : StateManager × List Ev) k =>
      ((removePersisted acc.1 k).1, acc.2 ++ (removePersisted acc.1 k).2))
    (s1, evs)

/-- Calling `setState` for each pair of a list in sequence (the program
`batchUpdate` is claimed to be equivalent to). -/
def setStateMany (s : StateManager) (updates : List (String × JVal)) :
    StateManager × List Ev :=
  updates.foldl
    (fun acc kv =>
      ((setState acc.1 kv.1 kv.2).1, acc.2 ++ (setState acc.1 kv.1 kv.2).2))
    (s, ([] : List Ev))

/-- A mutating StateManager operation, for the history claims. -/
inductive Op where
  | set (key : String) (v : JVal)
  | remove (key : String)
  | batch (updates : List (String × JVal))

/-- Run one mutating operation. -/
def applyOp (s : StateManager) : Op → StateManager × List Ev
  | .set k v => setState s k v
  | .remove k => removeState s k
  | .batch us => batchUpdate s us

/-- Run a sequence of mutating operations. -/
def applyOps (s : StateManager) : List Op → StateManager
  | [] => s
  | op :: ops => applyOps (applyOp s op).1 ops

/-- The history entries a `batchUpdate` appends (one per pair, in order),
given the pre-collected old values and the starting timestamp. -/
def batchEntries (olds : List (String × JVal)) :
    List (String × JVal) → Nat → List HistoryEntry
  | [], _ => []
  | kv :: rest, t =>
    ⟨kv.1, jsGetD olds kv.1 .undefined, kv.2, t⟩ :: batchEntries olds rest (t + 1)

/-- The history entries one operation appends, oldest first: exactly one
per effective mutation (an effective `setState`, a present-key
`removeState`, each pair of a `batchUpdate`). -/
def opEntries (s : StateManager) : Op → List HistoryEntry
  | .set k v =>
    let old := jsGet s.state k
    if deepEqual old v then [] else [⟨k, old, v, s.now⟩]
  | .remove k =>
    if jsHas s.state k then [⟨k, jsGet s.state k, .undefined, s.now⟩] else []
  | .batch us =>
    batchEntries (us.map fun kv => (kv.1, jsGet s.state kv.1)) us s.now

/-- The history entries a whole run of operations appends, oldest first. -/
def opsEntries (s : StateManager) : List Op → List HistoryEntry
  | [] => []
  | op :: ops => opEntries s op ++ opsEntries (applyOp s op).1 ops

end StateManager

/-! ## Construction and `init()` (`StateManagerRaw`)

The constructor (part_007 lines 12-22) assigns `state`, `subscribers`,
`history`, `maxHistorySize` and `sensitiveKeys` — but not
`this.persistedKeys`, which is only assigned by `setupAutoPersistence`
(called from `init()` *after* `loadPersistedState`).  `persistedKeysOpt =
none` models the JavaScript `undefined` of the unassigned field. -/

/-- A thrown JavaScript error. -/
inductive JsErr where
  | typeError
deriving Repr, DecidableEq

/-- The manager as the constructor leaves it. -/
structure StateManagerRaw where
  state : List (String × JVal)
  subscribers : List (String × List Cb)
  history : List HistoryEntry
  maxHistorySize : Nat
  sensitiveKeys : List String
  persistedKeysOpt : Option (List String)
  storage : List (String × String)
deriving Repr

namespace StateManagerRaw

/-- `new StateManager()` against given `localStorage` contents. -/
def new (storage : List (String × String)) : StateManagerRaw :=
  { state := [], subscribers := [], history := [], maxHistorySize := 50,
    sensitiveKeys := StateManager.constructorSensitiveKeys,
    persistedKeysOpt := none, storage := storage }

/-- `localStorage.getItem`: `none` is JavaScript `null`. -/
def storageGet (storage : List (String × String)) (k : String) :
    Option String :=
  match storage.find? (fun p => p.1 == k) with
  | some p => some p.2
  | none => none

/-- `loadPersistedState()` (part_007 lines 344-358):
`this.persistedKeys.forEach(...)` — reading `.forEach` off the still
`undefined` field throws a `TypeError` (the `try` sits *inside* the
callback, so nothing catches this).  With an assigned key set, each key is
read from storage and `JSON.parse`d, a parse failure being caught and
logged per key. -/
def loadPersistedState (m : StateManagerRaw) : Except JsErr StateManagerRaw :=
  match m.persistedKeysOpt with
  | none => .error .typeError
  | some ks =>
    .ok { m with state := (ks.foldl
      (fun st k =>
        match storageGet m.storage ("pos_state_" ++ k) with
        | none => st
        | some v =>
          match parseJson v with
          | none => st
          | some jv => jsSet st k jv)
      m.state) }

/-- `setupAutoPersistence()` (part_007 lines 319-327). -/
def setupAutoPersistence (m : StateManagerRaw) : StateManagerRaw :=
  { m with persistedKeysOpt := some StateManager.setupPersistedKeys }

/-- `init()` (part_007 lines 27-35): `loadPersistedState()` first, then
`setupAutoPersistence()`. -/
def init (m : StateManagerRaw) : Except JsErr StateManagerRaw :=
  match loadPersistedState m with
  | .error e => .error e
  | .ok m1 => .ok (setupAutoPersistence m1)

end StateManagerRaw

/-! ## The BaseView lifecycle (`src/public/assets/js/views/BaseView.js`)

A view instance becomes a record; DOM effects (document title, body
classes, the mount point's `innerHTML`) are fields; the child-supplied
`onInit`/`onDestroy` overrides are abstracted by the flags
`onInitThrows`/`onDestroyThrows`, the only aspect of them the lifecycle
claims depend on.  Lifecycle steps are recorded as `VAct` actions, and an
error escaping to the caller is the `Option ViewErr` component. -/

/-- An error propagating out of a lifecycle method. -/
inductive ViewErr where
  | onInitError
  | onDestroyError
deriving Repr, DecidableEq

/-- Observable lifecycle steps. -/
inductive VAct where
  | warnAlready
  | setTitleAct
  | addClassAct
  | onInitCall
  | logInitError
  | onDestroyCall
  | logDestroyError
  | removeListenersAct
  | clearTimeoutsAct
  | clearIntervalsAct
  | removeClassAct
  | clearContainerAct
deriving Repr, DecidableEq

/-- A `BaseView` instance (the fields the lifecycle methods touch). -/
structure BaseView where
  name : String
  title : String
  isInitialized : Bool
  isDestroyed : Bool
  viewState : List (String × JVal)
  eventListeners : List Nat
  timeouts : List Nat
  intervals : List Nat
  containerContent : String
  documentTitle : String
  bodyClasses : List String
  onInitThrows : Bool
  onDestroyThrows : Bool
deriving Repr

namespace BaseView

/-- `setDocumentTitle()` (BaseView.js lines 282-286). -/
def setDocumentTitle (v : BaseView) : BaseView :=
  if v.title != "" then { v with documentTitle := v.title ++ " - Sistema POS" }
  else v

/-- `addViewClass()` (BaseView.js lines 288-292); `classList.add` does not
duplicate an existing class. -/
def addViewClass (v : BaseView) : BaseView :=
  if v.name != "" then
    let cls := "view-" ++ v.name
    if v.bodyClasses.contains cls then v
    else { v with bodyClasses := v.bodyClasses ++ [cls] }
  else v

/-- `removeViewClass()` (BaseView.js lines 294-298). -/
def removeViewClass (v : BaseView) : BaseView :=
  if v.name != "" then
    { v with bodyClasses := v.bodyClasses.filter (fun c => c != "view-" ++ v.name) }
  else v

/-- `init()` (BaseView.js lines 52-77): second initialization is a warning
no-op; otherwise apply document chrome, run `onInit`, and mark
initialized.  The `catch` logs and **re-throws**, so an `onInit` error
reaches the caller and the `isInitialized = true` assignment never runs. -/
def init (v : BaseView) : BaseView × List VAct × Option ViewErr :=
  if v.isInitialized then (v, [.warnAlready], none)
  else
    let v1 := addViewClass (setDocumentTitle v)
    if v.onInitThrows then
      (v1, [.setTitleAct, .addClassAct, .onInitCall, .logInitError],
        some .onInitError)
    else
      ({ v1 with isInitialized := true },
        [.setTitleAct, .addClassAct, .onInitCall], none)

/-- `destroy()` (BaseView.js lines 90-128): already-destroyed views return
immediately.  Otherwise the whole teardown runs inside `try/catch`: if
`onDestroy` throws, the error is caught and logged and the remaining
steps (including the `isDestroyed = true` marker) are skipped; no error
ever escapes.  On the normal path every tracked resource is released, the
view class removed, the mount point cleared, the state reset, and the
view marked destroyed. -/
def destroy (v : BaseView) : BaseView × List VAct × Option ViewErr :=
  if v.isDestroyed then (v, [], none)
  else if v.onDestroyThrows then
    (v, [.onDestroyCall, .logDestroyError], none)
  else
    ({ removeViewClass v with
        eventListeners := [], timeouts := [], intervals := [],
        containerContent := "", viewState := [],
        isInitialized := false, isDestroyed := true },
      [.onDestroyCall, .removeListenersAct, .clearTimeoutsAct,
        .clearIntervalsAct, .removeClassAct, .clearContainerAct], none)

/-- The number of mount-point clears (`container.innerHTML = ''`) a trace
performs. -/
def clearCount (acts : List VAct) : Nat :=
  acts.count .clearContainerAct

end BaseView

/-! ## Notification auto-hide
(`src/public/assets/js/components/Notification.js`)

Only the timer bookkeeping of `scheduleAutoHide` / `pauseAutoHide` /
`resumeAutoHide` is modelled.  Durations are rationals (idealized
JavaScript numbers; the literal `0.3` is the rational `3/10`).  The
`timer` field holds the delay a pending auto-hide was scheduled with
(`none` is the cleared/`null` timer).  `elapsedShown` tracks, in the model
only, how long the toast has really been visible — the code never reads
it, which is exactly what the claim is about. -/

/-- Per-notification bookkeeping. -/
structure NotifEntry where
  duration : Rat
  timer : Option Rat
  elapsedShown : Rat
deriving Repr

/-- The `notifications` map of `NotificationSystem`. -/
structure NotificationSystem where
  notifications : List (Nat × NotifEntry)
deriving Repr

namespace NotificationSystem

/-- `this.notifications.get(id)`. -/
def lookupNotif (ns : NotificationSystem) (id : Nat) : Option NotifEntry :=
  match ns.notifications.find? (fun p => p.1 == id) with
  | some p => some p.2
  | none => none

/-- `scheduleAutoHide(id, duration)` (Notification.js lines 293-300):
missing id — return; otherwise arm the timer with the given delay. -/
def scheduleAutoHide (ns : NotificationSystem) (id : Nat) (duration : Rat) :
    NotificationSystem :=
  match lookupNotif ns id with
  | none => ns
  | some n =>
    { notifications := jsSet ns.notifications id { n with timer := some duration } }

/-- `pauseAutoHide(id)` (Notification.js lines 305-317): missing id or no
pending timer — return; otherwise clear the timer. -/
def pauseAutoHide (ns : NotificationSystem) (id : Nat) : NotificationSystem :=
  match lookupNotif ns id with
  | none => ns
  | some n =>
    match n.timer with
    | none => ns
    | some _ =>
      { notifications := jsSet ns.notifications id { n with timer := none } }

/-- `resumeAutoHide(id)` (Notification.js lines 322-336): missing id —
return; otherwise compute `remainingTime = config.duration * 0.3` (a fixed
fraction of the *original* duration; the comment in the source says
"simplified — could be more accurate") and schedule the auto-hide with
that delay. -/
def resumeAutoHide (ns : NotificationSystem) (id : Nat) : NotificationSystem :=
  match lookupNotif ns id with
  | none => ns
  | some n => scheduleAutoHide ns id (n.duration * (3 / 10))

end NotificationSystem

/-! ## Association-list lemmas -/

@[simp] theorem jsGetD_nil {κ α : Type} [BEq κ] (k : κ) (d : α) :
    jsGetD ([] : List (κ × α)) k d = d := rfl

@[simp] theorem jsGetD_cons {κ α : Type} [BEq κ] (p : κ × α)
    (rest : List (κ × α)) (k : κ) (d : α) :
    jsGetD (p :: rest) k d = if p.1 == k then p.2 else jsGetD rest k d := by
  cases h : p.1 == k <;> simp [jsGetD, List.find?, h]

@[simp] theorem jsHas_nil {κ α : Type} [BEq κ] (k : κ) :
    jsHas ([] : List (κ × α)) k = false := rfl

@[simp] theorem jsHas_cons {κ α : Type} [BEq κ] (p : κ × α)
    (rest : List (κ × α)) (k : κ) :
    jsHas (p :: rest) k = (p.1 == k || jsHas rest k) := by
  simp [jsHas]

theorem jsGet_eq_jsGetD (l : List (String × JVal)) (k : String) :
    jsGet l k = jsGetD l k .undefined := by
  cases h : l.find? (fun p => p.1 == k) <;> simp [jsGet, jsGetD, h]

@[simp] theorem jsDelete_nil {κ α : Type} [BEq κ] (k : κ) :
    jsDelete ([] : List (κ × α)) k = [] := rfl

@[simp] theorem jsDelete_cons {κ α : Type} [BEq κ] (p : κ × α)
    (rest : List (κ × α)) (k : κ) :
    jsDelete (p :: rest) k =
      (if p.1 == k then jsDelete rest k else p :: jsDelete rest k) := by
  cases hp : p.1 == k <;> simp [jsDelete, hp]

theorem jsGetD_append {κ α : Type} [BEq κ] (l1 l2 : List (κ × α)) (k : κ)
    (d : α) :
    jsGetD (l1 ++ l2) k d =
      (if jsHas l1 k then jsGetD l1 k d else jsGetD l2 k d) := by
  induction l1 with
  | nil => simp
  | cons p rest ih => cases hp : p.1 == k <;> simp [hp, ih]

theorem jsHas_append {κ α : Type} [BEq κ] (l1 l2 : List (κ × α)) (k : κ) :
    jsHas (l1 ++ l2) k = (jsHas l1 k || jsHas l2 k) := by
  simp [jsHas]

theorem jsGetD_of_not_has {κ α : Type} [BEq κ] (l : List (κ × α)) (k : κ)
    (d : α) (h : jsHas l k = false) : jsGetD l k d = d := by
  induction l with
  | nil => simp
  | cons p rest ih =>
    simp only [jsHas_cons, Bool.or_eq_false_iff] at h
    simp [h.1, ih h.2]

theorem jsGetD_setMap_self {κ α : Type} [BEq κ] [LawfulBEq κ]
    (l : List (κ × α)) (k : κ) (v d : α) (h : jsHas l k = true) :
    jsGetD (l.map (fun p => if p.1 == k then (k, v) else p)) k d = v := by
  induction l with
  | nil => simp at h
  | cons p rest ih =>
    cases hp : p.1 == k with
    | false =>
      simp only [jsHas_cons, hp, Bool.false_or] at h
      simp [hp, ih h]
    | true => simp [hp]

theorem jsGetD_setMap_ne {κ α : Type} [BEq κ] [LawfulBEq κ]
    (l : List (κ × α)) (k k' : κ) (v d : α) (hne : k' ≠ k) :
    jsGetD (l.map (fun p => if p.1 == k then (k, v) else p)) k' d =
      jsGetD l k' d := by
  have hkk' : (k == k') = false :=
    beq_eq_false_iff_ne.mpr (fun h => hne h.symm)
  induction l with
  | nil => simp
  | cons p rest ih =>
    cases hp : p.1 == k with
    | false => simp [hp, ih]
    | true =>
      have hp' : p.1 = k := by simpa using hp
      simp [hp, hp', hkk', ih]

theorem jsHas_setMap_self {κ α : Type} [BEq κ] [LawfulBEq κ]
    (l : List (κ × α)) (k : κ) (v : α) (h : jsHas l k = true) :
    jsHas (l.map (fun p => if p.1 == k then (k, v) else p)) k = true := by
  induction l with
  | nil => simp at h
  | cons p rest ih =>
    cases hp : p.1 == k with
    | false =>
      simp only [jsHas_cons, hp, Bool.false_or] at h
      simp [hp, ih h]
    | true => simp [hp]

theorem jsHas_setMap_ne {κ α : Type} [BEq κ] [LawfulBEq κ]
    (l : List (κ × α)) (k k' : κ) (v : α) (hne : k' ≠ k) :
    jsHas (l.map (fun p => if p.1 == k then (k, v) else p)) k' =
      jsHas l k' := by
  have hkk' : (k == k') = false :=
    beq_eq_false_iff_ne.mpr (fun h => hne h.symm)
  induction l with
  | nil => simp
  | cons p rest ih =>
    cases hp : p.1 == k with
    | false => simp [hp, ih]
    | true =>
      have hp' : p.1 = k := by simpa using hp
      simp [hp, hp', hkk', ih]

theorem jsGetD_jsSet_self {κ α : Type} [BEq κ] [LawfulBEq κ]
    (l : List (κ × α)) (k : κ) (v d : α) :
    jsGetD (jsSet l k v) k d = v := by
  unfold jsSet
  by_cases h : jsHas l k
  · simp only [h, if_true]
    exact jsGetD_setMap_self l k v d h
  · simp only [h, if_false]
    have h' : jsHas l k = false := by simpa using h
    simp [jsGetD_append, h']

theorem jsGetD_jsSet_ne {κ α : Type} [BEq κ] [LawfulBEq κ]
    (l : List (κ × α)) (k k' : κ) (v d : α) (hne : k' ≠ k) :
    jsGetD (jsSet l k v) k' d = jsGetD l k' d := by
  have hkk' : (k == k') = false :=
    beq_eq_false_iff_ne.mpr (fun h => hne h.symm)
  unfold jsSet
  by_cases h : jsHas l k
  · simp only [h, if_true]
    exact jsGetD_setMap_ne l k k' v d hne
  · simp only [h, if_false]
    by_cases h2 : jsHas l k'
    · simp [jsGetD_append, h2]
    · have h2' : jsHas l k' = false := by simpa using h2
      simp [jsGetD_append, h2', hkk', jsGetD_of_not_has l k' d h2']

theorem jsHas_jsSet_self {κ α : Type} [BEq κ] [LawfulBEq κ]
    (l : List (κ × α)) (k : κ) (v : α) :
    jsHas (jsSet l k v) k = true := by
  unfold jsSet
  by_cases h : jsHas l k
  · simp only [h, if_true]
    exact jsHas_setMap_self l k v h
  · simp only [h, if_false]
    simp [jsHas_append]

theorem jsHas_jsSet_ne {κ α : Type} [BEq κ] [LawfulBEq κ]
    (l : List (κ × α)) (k k' : κ) (v : α) (hne : k' ≠ k) :
    jsHas (jsSet l k v) k' = jsHas l k' := by
  have hkk' : (k == k') = false :=
    beq_eq_false_iff_ne.mpr (fun h => hne h.symm)
  unfold jsSet
  by_cases h : jsHas l k
  · simp only [h, if_true]
    exact jsHas_setMap_ne l k k' v hne
  · simp only [h, if_false]
    simp [jsHas_append, hkk']

@[simp] theorem jsGetD_jsDelete_self {κ α : Type} [BEq κ] [LawfulBEq κ]
    (l : List (κ × α)) (k : κ) (d : α) :
    jsGetD (jsDelete l k) k d = d := by
  induction l with
  | nil => simp
  | cons p rest ih =>
    cases hp : p.1 == k with
    | false => simp [hp, ih]
    | true => simp [hp, ih]

@[simp] theorem jsHas_jsDelete_self {κ α : Type} [BEq κ] [LawfulBEq κ]
    (l : List (κ × α)) (k : κ) :
    jsHas (jsDelete l k) k = false := by
  induction l with
  | nil => simp
  | cons p rest ih =>
    cases hp : p.1 == k with
    | false => simp [hp, ih]
    | true => simp [hp, ih]

theorem jsGetD_jsDelete_ne {κ α : Type} [BEq κ] [LawfulBEq κ]
    (l : List (κ × α)) (k k' : κ) (d : α) (hne : k' ≠ k) :
    jsGetD (jsDelete l k) k' d = jsGetD l k' d := by
  induction l with
  | nil => simp
  | cons p rest ih =>
    cases hp : p.1 == k with
    | false => cases hq : p.1 == k' <;> simp [hp, hq, ih]
    | true =>
      have hp' : p.1 = k := by simpa using hp
      have hq : (p.1 == k') = false :=
        beq_eq_false_iff_ne.mpr (fun h => hne (hp' ▸ h).symm)
      simp [hp, hq, ih]

theorem jsHas_jsDelete_ne {κ α : Type} [BEq κ] [LawfulBEq κ]
    (l : List (κ × α)) (k k' : κ) (hne : k' ≠ k) :
    jsHas (jsDelete l k) k' = jsHas l k' := by
  induction l with
  | nil => simp
  | cons p rest ih =>
    cases hp : p.1 == k with
    | false => cases hq : p.1 == k' <;> simp [hp, hq, ih]
    | true =>
      have hp' : p.1 = k := by simpa using hp
      have hq : (p.1 == k') = false :=
        beq_eq_false_iff_ne.mpr (fun h => hne (hp' ▸ h).symm)
      simp [hp, hq, ih]

/-- Duplicate-key test for object key lists. -/
def dupKeys : List String → Bool
  | [] => false
  | k :: ks => ks.contains k || dupKeys ks

mutual
/-- A `JVal` denotes a real JavaScript value when every object literal in
it has pairwise-distinct keys (JavaScript object keys are unique). -/
def wf : JVal → Bool
  | .undefined => true
  | .null => true
  | .bool _ => true
  | .num _ => true
  | .str _ => true
  | .arr xs => wfList xs
  | .obj fs => !dupKeys (fs.map Prod.fst) && wfFields fs

/-- Well-formedness of array elements. -/
def wfList : List JVal → Bool
  | [] => true
  | x :: xs => wf x && wfList xs

/-- Well-formedness of object field values. -/
def wfFields : List (String × JVal) → Bool
  | [] => true
  | kv :: rest => wf kv.2 && wfFields rest
end

theorem nodup_of_dupKeys_false : ∀ ks : List String,
    dupKeys ks = false → ks.Nodup
  | [], _ => List.nodup_nil
  | k :: ks, h => by
    simp only [dupKeys, Bool.or_eq_false_iff] at h
    exact List.nodup_cons.mpr ⟨by simpa using h.1, nodup_of_dupKeys_false ks h.2⟩

/-- In an association list with distinct keys, looking up the key of a
member returns that member's value. -/
theorem jsGetD_of_nodup {α : Type} (l : List (String × α))
    (hnd : (l.map Prod.fst).Nodup) (kv : String × α) (hkv : kv ∈ l) (d : α) :
    jsGetD l kv.1 d = kv.2 := by
  induction l with
  | nil => simp at hkv
  | cons p rest ih =>
    simp only [List.map_cons, List.nodup_cons] at hnd
    rcases List.mem_cons.mp hkv with h | h
    · subst h
      simp
    · have hne : (p.1 == kv.1) = false := by
        simp only [beq_eq_false_iff_ne, ne_eq]
        intro hEq
        exact hnd.1 (hEq ▸ (List.mem_map.mpr ⟨kv, h, rfl⟩))
      simp [hne, ih hnd.2 h]

/-! ## Deep equality is structural

The code's `deepEqual` accepts any two structurally identical values —
in particular two separately constructed (reference-distinct) copies of
the same object, which is the situation the spec's "equality is
structural, not reference" clause is about. -/

mutual
/-- Structural reflexivity of `deepEqual` on well-formed values. -/
theorem deepEqual_refl : ∀ v : JVal, wf v = true → deepEqual v v = true
  | .undefined, _ => by simp [deepEqual, jsStrictEq]
  | .null, _ => by simp [deepEqual, jsStrictEq]
  | .bool b, _ => by simp [deepEqual, jsStrictEq]
  | .num n, _ => by simp [deepEqual, jsStrictEq]
  | .str s, _ => by simp [deepEqual, jsStrictEq]
  | .arr xs, h => by
    have hl : wfList xs = true := by simpa [wf] using h
    simp [deepEqual, jsStrictEq, jsLooseNull, jsTypeof,
      deepEqualList_refl xs hl]
  | .obj fs, h => by
    have h' : dupKeys (fs.map Prod.fst) = false ∧ wfFields fs = true := by
      simpa [wf] using h
    have hnd : (fs.map Prod.fst).Nodup := nodup_of_dupKeys_false _ h'.1
    have hfields : deepEqualFields fs fs = true := by
      refine deepEqualFields_self fs fs h'.2 ?_
      intro kv hkv
      constructor
      · exact List.elem_eq_true_of_mem (List.mem_map.mpr ⟨kv, hkv, rfl⟩)
      · rw [jsGet_eq_jsGetD]
        exact jsGetD_of_nodup fs hnd kv hkv .undefined
    simp [deepEqual, jsStrictEq, jsLooseNull, jsTypeof, hfields]

/-- Element-wise reflexivity for arrays. -/
theorem deepEqualList_refl : ∀ xs : List JVal,
    wfList xs = true → deepEqualList xs xs = true
  | [], _ => rfl
  | x :: xs, h => by
    have h' : wf x = true ∧ wfList xs = true := by simpa [wfList] using h
    simp [deepEqualList, deepEqual_refl x h'.1, deepEqualList_refl xs h'.2]

/-- The field loop of `deepEqual` succeeds whenever every listed field is
found unchanged in the other object. -/
theorem deepEqualFields_self : ∀ (fa fb : List (String × JVal)),
    wfFields fa = true →
    (∀ kv ∈ fa, (fb.map Prod.fst).contains kv.1 = true ∧ jsGet fb kv.1 = kv.2) →
    deepEqualFields fa fb = true
  | [], _, _, _ => rfl
  | (k, v) :: rest, fb, hwf, hmem => by
    have h' : wf v = true ∧ wfFields rest = true := by simpa [wfFields] using hwf
    have hhd := hmem (k, v) (List.mem_cons_self _ _)
    have htl : ∀ kv ∈ rest,
        (fb.map Prod.fst).contains kv.1 = true ∧ jsGet fb kv.1 = kv.2 :=
      fun kv hkv => hmem kv (List.mem_cons_of_mem _ hkv)
    have hv : deepEqual v (jsGet fb k) = true := by
      rw [hhd.2]
      exact deepEqual_refl v h'.1
    have hrest := deepEqualFields_self rest fb h'.2 htl
    simp only [deepEqualFields, Bool.and_eq_true]
    exact ⟨⟨hhd.1, hv⟩, hrest⟩
end



/-! ## Frame lemmas for the StateManager operations -/

namespace StateManager

@[simp] theorem addToHistory_state (s : StateManager) (k : String)
    (ov nv : JVal) : (addToHistory s k ov nv).state = s.state := rfl

@[simp] theorem addToHistory_subscribers (s : StateManager) (k : String)
    (ov nv : JVal) : (addToHistory s k ov nv).subscribers = s.subscribers := rfl

@[simp] theorem addToHistory_storage (s : StateManager) (k : String)
    (ov nv : JVal) : (addToHistory s k ov nv).storage = s.storage := rfl

@[simp] theorem addToHistory_maxHistorySize (s : StateManager) (k : String)
    (ov nv : JVal) : (addToHistory s k ov nv).maxHistorySize =
      s.maxHistorySize := rfl

@[simp] theorem addToHistory_sensitiveKeys (s : StateManager) (k : String)
    (ov nv : JVal) : (addToHistory s k ov nv).sensitiveKeys =
      s.sensitiveKeys := rfl

@[simp] theorem addToHistory_persistedKeys (s : StateManager) (k : String)
    (ov nv : JVal) : (addToHistory s k ov nv).persistedKeys =
      s.persistedKeys := rfl

@[simp] theorem addToHistory_now (s : StateManager) (k : String)
    (ov nv : JVal) : (addToHistory s k ov nv).now = s.now + 1 := rfl

/-- Unshift-then-truncate equals an unconditional bounded prepend. -/
theorem addToHistory_history (s : StateManager) (k : String) (ov nv : JVal) :
    (addToHistory s k ov nv).history =
      ((⟨k, ov, nv, s.now⟩ : HistoryEntry) :: s.history).take
        s.maxHistorySize := by
  unfold addToHistory
  by_cases h : (⟨k, ov, nv, s.now⟩ :: s.history : List HistoryEntry).length >
      s.maxHistorySize
  · simp [h]
  · have hle : (⟨k, ov, nv, s.now⟩ :: s.history : List HistoryEntry).length ≤
        s.maxHistorySize := Nat.le_of_not_lt h
    simp [h, List.take_of_length_le hle]

@[simp] theorem autoPersist_fst_state (s : StateManager) (k : String)
    (v : JVal) : (autoPersist s k v).1.state = s.state := by
  unfold autoPersist persistState
  split <;> rfl

@[simp] theorem autoPersist_fst_history (s : StateManager) (k : String)
    (v : JVal) : (autoPersist s k v).1.history = s.history := by
  unfold autoPersist persistState
  split <;> rfl

@[simp] theorem autoPersist_fst_subscribers (s : StateManager) (k : String)
    (v : JVal) : (autoPersist s k v).1.subscribers = s.subscribers := by
  unfold autoPersist persistState
  split <;> rfl

@[simp] theorem autoPersist_fst_now (s : StateManager) (k : String)
    (v : JVal) : (autoPersist s k v).1.now = s.now := by
  unfold autoPersist persistState
  split <;> rfl

@[simp] theorem autoPersist_fst_maxHistorySize (s : StateManager) (k : String)
    (v : JVal) : (autoPersist s k v).1.maxHistorySize = s.maxHistorySize := by
  unfold autoPersist persistState
  split <;> rfl

@[simp] theorem autoPersist_fst_sensitiveKeys (s : StateManager) (k : String)
    (v : JVal) : (autoPersist s k v).1.sensitiveKeys = s.sensitiveKeys := by
  unfold autoPersist persistState
  split <;> rfl

@[simp] theorem autoPersist_fst_persistedKeys (s : StateManager) (k : String)
    (v : JVal) : (autoPersist s k v).1.persistedKeys = s.persistedKeys := by
  unfold autoPersist persistState
  split <;> rfl

@[simp] theorem removePersisted_fst_state (s : StateManager) (k : String) :
    (removePersisted s k).1.state = s.state := rfl

@[simp] theorem removePersisted_fst_history (s : StateManager) (k : String) :
    (removePersisted s k).1.history = s.history := rfl

@[simp] theorem removePersisted_fst_subscribers (s : StateManager)
    (k : String) : (removePersisted s k).1.subscribers = s.subscribers := rfl

@[simp] theorem removePersisted_fst_now (s : StateManager) (k : String) :
    (removePersisted s k).1.now = s.now := rfl

@[simp] theorem removePersisted_fst_sensitiveKeys (s : StateManager)
    (k : String) : (removePersisted s k).1.sensitiveKeys =
      s.sensitiveKeys := rfl

@[simp] theorem removePersisted_fst_maxHistorySize (s : StateManager)
    (k : String) : (removePersisted s k).1.maxHistorySize =
      s.maxHistorySize := rfl

/-- Effective `setState`: the state slot afterwards holds the new value. -/
theorem setState_fst_state (s : StateManager) (key : String) (v : JVal)
    (h : deepEqual (jsGet s.state key) v = false) :
    (setState s key v).1.state = jsSet s.state key v := by
  simp [setState, h]

/-- Effective `setState`: exactly one history entry is prepended (the
oldest entry falling off when the cap is reached). -/
theorem setState_fst_history (s : StateManager) (key : String) (v : JVal)
    (h : deepEqual (jsGet s.state key) v = false) :
    (setState s key v).1.history =
      ((⟨key, jsGet s.state key, v, s.now⟩ : HistoryEntry) ::
        s.history).take s.maxHistorySize := by
  simp [setState, h, addToHistory_history]

theorem setState_fst_subscribers (s : StateManager) (key : String) (v : JVal) :
    (setState s key v).1.subscribers = s.subscribers := by
  by_cases h : deepEqual (jsGet s.state key) v = true <;> simp [setState, h]

theorem setState_fst_maxHistorySize (s : StateManager) (key : String)
    (v : JVal) : (setState s key v).1.maxHistorySize = s.maxHistorySize := by
  by_cases h : deepEqual (jsGet s.state key) v = true <;> simp [setState, h]

end StateManager


/-! ## Claim theorems -/

/-- `setState` returns immediately when the stored value is deep-equal to
the new one (part_007 lines 43-46). -/
theorem setState_noop_of_deepEqual (s : StateManager) (key : String)
    (v : JVal) (h : deepEqual (jsGet s.state key) v = true) :
    StateManager.setState s key v = (s, []) := by
  simp [StateManager.setState, h]

/-- A sample manager used to witness the StateManager claims: one stored
key, a per-key subscriber, a wildcard subscriber. -/
def sampleSM : StateManager :=
  { state := [("user", .obj [("id", .num 1)])],
    subscribers := [("user", [⟨0, false⟩]), ("*", [⟨9, false⟩])],
    history := [], maxHistorySize := 50,
    sensitiveKeys := StateManager.constructorSensitiveKeys,
    persistedKeys := StateManager.setupPersistedKeys,
    storage := [], now := 0 }

/-- C10: `removeState` on a key that is not present is a total no-op —
no history entry, no subscriber notification (per-key or wildcard), no
durable-storage access, and an unchanged manager. -/
theorem C10_removeState_absent_noop (s : StateManager) (key : String)
    (h : jsHas s.state key = false) :
    StateManager.removeState s key = (s, []) := by
  simp [StateManager.removeState, h]

/-- Witness for C10 at a concrete manager and key. -/
theorem C10_removeState_absent_noop_witness :
    jsHas sampleSM.state "missing" = false ∧
    StateManager.removeState sampleSM "missing" = (sampleSM, []) :=
  ⟨by decide, C10_removeState_absent_noop sampleSM "missing" (by decide)⟩

/-- C1: `setState` with a value deep-equal to the stored one is a no-op —
no subscriber notification, no history entry, the manager unchanged
(first conjunct); deep equality is structural, accepting any structurally
identical (reference-distinct) copy of a well-formed value (second
conjunct); hence two successive `setState` calls with distinct but
deep-equal values notify subscribers exactly once total — the second call
emits no events — and append exactly one history entry (third
conjunct). -/
theorem C1_setState_deep_equal_noop :
    (∀ (s : StateManager) (key : String) (v : JVal),
      deepEqual (jsGet s.state key) v = true →
      StateManager.setState s key v = (s, [])) ∧
    (∀ v : JVal, wf v = true → deepEqual v v = true) ∧
    (∀ (s : StateManager) (key : String) (v v' : JVal),
      deepEqual (jsGet s.state key) v = false →
      deepEqual v v' = true →
      StateManager.setState (StateManager.setState s key v).1 key v' =
        ((StateManager.setState s key v).1, []) ∧
      (StateManager.setState s key v).1.history =
        ((⟨key, jsGet s.state key, v, s.now⟩ : HistoryEntry) ::
          s.history).take s.maxHistorySize) := by
  refine ⟨setState_noop_of_deepEqual, deepEqual_refl, ?_⟩
  intro s key v v' h1 h2
  refine ⟨?_, StateManager.setState_fst_history s key v h1⟩
  have hv : jsGet (StateManager.setState s key v).1.state key = v := by
    rw [StateManager.setState_fst_state s key v h1, jsGet_eq_jsGetD]
    exact jsGetD_jsSet_self s.state key v .undefined
  exact setState_noop_of_deepEqual _ key v' (by rw [hv]; exact h2)

/-- Witness for C1: each conjunct applied at concrete values — a stored
object versus a fresh structurally equal object, and two fresh deep-equal
objects on a previously different key. -/
theorem C1_setState_deep_equal_noop_witness :
    StateManager.setState sampleSM "user" (.obj [("id", .num 1)]) =
      (sampleSM, []) ∧
    deepEqual (.obj [("id", .num 1)]) (.obj [("id", .num 1)]) = true ∧
    (StateManager.setState
        (StateManager.setState sampleSM "token" (.str "abc")).1 "token"
        (.str "abc") =
      ((StateManager.setState sampleSM "token" (.str "abc")).1, []) ∧
    (StateManager.setState sampleSM "token" (.str "abc")).1.history =
      ((⟨"token", .undefined, .str "abc", 0⟩ : HistoryEntry) ::
        sampleSM.history).take 50) :=
  ⟨C1_setState_deep_equal_noop.1 sampleSM "user" (.obj [("id", .num 1)])
      (by decide),
    C1_setState_deep_equal_noop.2.1 (.obj [("id", .num 1)]) (by decide),
    C1_setState_deep_equal_noop.2.2 sampleSM "token" (.str "abc")
      (.str "abc") (by decide) (by decide)⟩


/-! ## BaseView claims -/

@[simp] theorem setDocumentTitle_isInitialized (v : BaseView) :
    (BaseView.setDocumentTitle v).isInitialized = v.isInitialized := by
  unfold BaseView.setDocumentTitle
  split <;> rfl

@[simp] theorem addViewClass_isInitialized (v : BaseView) :
    (BaseView.addViewClass v).isInitialized = v.isInitialized := by
  unfold BaseView.addViewClass
  by_cases h1 : (v.name != "") = true
  · simp only [h1, if_true]
    by_cases h2 : ("view-" ++ v.name) ∈ v.bodyClasses <;> simp [h2]
  · simp [h1]

/-- A live sample view (initialized, not destroyed, benign overrides). -/
def sampleView : BaseView :=
  { name := "auth", title := "Iniciar", isInitialized := true,
    isDestroyed := false, viewState := [("step", .num 1)],
    eventListeners := [1, 2], timeouts := [3], intervals := [],
    containerContent := "<form></form>", documentTitle := "",
    bodyClasses := ["view-auth"], onInitThrows := false,
    onDestroyThrows := false }

/-- An uninitialized sample view whose `onInit` throws. -/
def sampleViewBadInit : BaseView :=
  { sampleView with isInitialized := false, onInitThrows := true }

/-- An already-destroyed sample view. -/
def sampleViewDestroyed : BaseView :=
  { sampleView with
    isDestroyed := true
    isInitialized := false
    containerContent := ""
    eventListeners := []
    timeouts := [] }

/-- C3: `destroy()` never lets an error escape (first conjunct — the whole
teardown, `onDestroy` included, sits in the catch-all); a second
`destroy()` on an already-destroyed view is a no-op producing no error
(second conjunct); and on the normal teardown path the first call marks
the view destroyed, the second call does nothing, and the mount point's
content is cleared exactly once across the two calls (third conjunct). -/
theorem C3_destroy_no_throw_idempotent :
    (∀ v : BaseView, (BaseView.destroy v).2.2 = none) ∧
    (∀ v : BaseView, v.isDestroyed = true →
      BaseView.destroy v = (v, [], none)) ∧
    (∀ v : BaseView, v.isDestroyed = false → v.onDestroyThrows = false →
      (BaseView.destroy v).1.isDestroyed = true ∧
      BaseView.destroy (BaseView.destroy v).1 =
        ((BaseView.destroy v).1, [], none) ∧
      BaseView.clearCount (BaseView.destroy v).2.1 +
        BaseView.clearCount (BaseView.destroy (BaseView.destroy v).1).2.1 =
        1) := by
  refine ⟨?_, ?_, ?_⟩
  · intro v
    by_cases h1 : v.isDestroyed = true
    · simp [BaseView.destroy, h1]
    · by_cases h2 : v.onDestroyThrows = true <;>
        simp [BaseView.destroy, h1, h2]
  · intro v h
    simp [BaseView.destroy, h]
  · intro v h1 h2
    have hfst : (BaseView.destroy v).1.isDestroyed = true := by
      simp [BaseView.destroy, h1, h2]
    have hsecond : ∀ w : BaseView, w.isDestroyed = true →
        BaseView.destroy w = (w, [], none) := fun w hw => by
      simp [BaseView.destroy, hw]
    refine ⟨hfst, hsecond _ hfst, ?_⟩
    have hacts : (BaseView.destroy v).2.1 =
        [.onDestroyCall, .removeListenersAct, .clearTimeoutsAct,
          .clearIntervalsAct, .removeClassAct, .clearContainerAct] := by
      simp [BaseView.destroy, h1, h2]
    rw [hacts, hsecond _ hfst]
    simp [BaseView.clearCount]

/-- Witness for C3 at concrete views: a live view destroyed twice and an
already-destroyed view. -/
theorem C3_destroy_no_throw_idempotent_witness :
    (BaseView.destroy sampleView).2.2 = none ∧
    BaseView.destroy sampleViewDestroyed = (sampleViewDestroyed, [], none) ∧
    ((BaseView.destroy sampleView).1.isDestroyed = true ∧
      BaseView.destroy (BaseView.destroy sampleView).1 =
        ((BaseView.destroy sampleView).1, [], none) ∧
      BaseView.clearCount (BaseView.destroy sampleView).2.1 +
        BaseView.clearCount
          (BaseView.destroy (BaseView.destroy sampleView).1).2.1 = 1) :=
  ⟨C3_destroy_no_throw_idempotent.1 sampleView,
    C3_destroy_no_throw_idempotent.2.1 sampleViewDestroyed (by decide),
    C3_destroy_no_throw_idempotent.2.2 sampleView (by decide) (by decide)⟩

/-- C8: when `onInit` throws inside `init()`, the error propagates to the
caller (the catch logs and re-throws) and the view is left not marked
initialized. -/
theorem C8_init_error_not_initialized (v : BaseView)
    (h1 : v.isInitialized = false) (h2 : v.onInitThrows = true) :
    (BaseView.init v).2.2 = some .onInitError ∧
    (BaseView.init v).1.isInitialized = false := by
  constructor <;> simp [BaseView.init, h1, h2]

/-- Witness for C8 at a concrete uninitialized view with a throwing
`onInit`. -/
theorem C8_init_error_not_initialized_witness :
    (BaseView.init sampleViewBadInit).2.2 = some .onInitError ∧
    (BaseView.init sampleViewBadInit).1.isInitialized = false :=
  C8_init_error_not_initialized sampleViewBadInit (by decide) (by decide)

/-! ## Notification claim -/

/-- Characterize map lookup through `jsHas`/`jsGetD`. -/
theorem lookupNotif_eq (ns : NotificationSystem) (id : Nat) :
    NotificationSystem.lookupNotif ns id =
      (if jsHas ns.notifications id then
        some (jsGetD ns.notifications id ⟨0, none, 0⟩) else none) := by
  obtain ⟨l⟩ := ns
  induction l with
  | nil => rfl
  | cons p rest ih =>
    cases hp : p.1 == id with
    | false =>
      simpa [NotificationSystem.lookupNotif, List.find?, hp]
        using ih
    | true => simp [NotificationSystem.lookupNotif, List.find?, hp]

/-- C9: for a notification with positive configured duration whose
auto-hide is hover-paused, `resumeAutoHide` schedules the hide after
`config.duration * 0.3` — a fixed fraction of the *original* configured
duration (first conjunct), and the scheduled delay is unchanged under any
value of the actually elapsed display time, which the code never reads
(second conjunct). -/
theorem C9_resume_fixed_fraction (ns : NotificationSystem) (id : Nat)
    (n : NotifEntry) (hl : NotificationSystem.lookupNotif ns id = some n)
    (_hd : 0 < n.duration) (_hp : n.timer = none) :
    NotificationSystem.lookupNotif (NotificationSystem.resumeAutoHide ns id)
        id = some { n with timer := some (n.duration * (3 / 10)) } ∧
    (∀ e : Rat,
      NotificationSystem.lookupNotif
        (NotificationSystem.resumeAutoHide
          ⟨jsSet ns.notifications id { n with elapsedShown := e }⟩ id) id =
      some { n with elapsedShown := e,
                    timer := some (n.duration * (3 / 10)) }) := by
  have hhas : jsHas ns.notifications id = true := by
    rw [lookupNotif_eq] at hl
    by_cases h : jsHas ns.notifications id = true
    · exact h
    · simp [h] at hl
  have hget : jsGetD ns.notifications id ⟨0, none, 0⟩ = n := by
    rw [lookupNotif_eq, if_pos hhas] at hl
    exact Option.some_injective _ hl
  constructor
  · simp only [NotificationSystem.resumeAutoHide, hl,
      NotificationSystem.scheduleAutoHide, hl]
    rw [lookupNotif_eq]
    simp [jsHas_jsSet_self, jsGetD_jsSet_self]
  · intro e
    have hl2 : NotificationSystem.lookupNotif
        ⟨jsSet ns.notifications id { n with elapsedShown := e }⟩ id =
        some { n with elapsedShown := e } := by
      rw [lookupNotif_eq]
      simp [jsHas_jsSet_self, jsGetD_jsSet_self]
    simp only [NotificationSystem.resumeAutoHide, hl2,
      NotificationSystem.scheduleAutoHide, hl2]
    rw [lookupNotif_eq]
    simp [jsHas_jsSet_self, jsGetD_jsSet_self]

/-- Witness for C9: a concrete paused notification of duration 4000. -/
theorem C9_resume_fixed_fraction_witness :
    (NotificationSystem.lookupNotif
        (NotificationSystem.resumeAutoHide
          ⟨[(7, ⟨4000, none, 1234⟩)]⟩ 7) 7 =
      some ⟨4000, some (4000 * (3 / 10)), 1234⟩) ∧
    (∀ e : Rat,
      NotificationSystem.lookupNotif
        (NotificationSystem.resumeAutoHide
          ⟨jsSet [(7, (⟨4000, none, 1234⟩ : NotifEntry))] 7
            ⟨4000, none, e⟩⟩ 7) 7 =
      some ⟨4000, some (4000 * (3 / 10)), e⟩) :=
  C9_resume_fixed_fraction ⟨[(7, ⟨4000, none, 1234⟩)]⟩ 7 ⟨4000, none, 1234⟩
    rfl (by norm_num) rfl

/-! ## Persisted round-trip claim: the `init()` path -/

/-- C7 (code bug): `init()` on a freshly constructed `StateManager`
always throws a `TypeError` — `loadPersistedState` runs *before*
`setupAutoPersistence`, so `this.persistedKeys.forEach` dereferences the
still-`undefined` field — hence no persisted key is ever loaded back,
whatever the storage contains. -/
theorem C7_fresh_init_throws (storage : List (String × String)) :
    StateManagerRaw.init (StateManagerRaw.new storage) =
      .error .typeError := rfl


/-! ## Subscriber-isolation claim -/

/-- The callback invocations recorded in an event trace, in order. -/
def invokedCbs : List Ev → List Nat
  | [] => []
  | .call cb _ _ _ _ :: rest => cb :: invokedCbs rest
  | .callW cb _ _ _ _ _ :: rest => cb :: invokedCbs rest
  | .storageSet _ _ :: rest => invokedCbs rest
  | .storageRemove _ :: rest => invokedCbs rest

theorem invokedCbs_append (a b : List Ev) :
    invokedCbs (a ++ b) = invokedCbs a ++ invokedCbs b := by
  induction a with
  | nil => rfl
  | cons e rest ih => cases e <;> simp [invokedCbs, ih]

theorem invokedCbs_call_map (l : List Cb) (key : String) (nv ov : JVal) :
    invokedCbs (l.map fun cb => Ev.call cb.id cb.throws key nv ov) =
      l.map Cb.id := by
  induction l with
  | nil => rfl
  | cons cb rest ih => simp [invokedCbs, ih]

theorem invokedCbs_callW_map (l : List Cb) (key : String) (nv ov : JVal)
    (snap : List (String × JVal)) :
    invokedCbs (l.map fun cb => Ev.callW cb.id cb.throws key nv ov snap) =
      l.map Cb.id := by
  induction l with
  | nil => rfl
  | cons cb rest ih => simp [invokedCbs, ih]

/-- Every registered callback for the key, then every wildcard callback,
contributes exactly one invocation record — the per-callback `try/catch`
means a throwing callback never stops the loop. -/
theorem invokedCbs_notifySubscribers (s : StateManager) (key : String)
    (nv ov : JVal) :
    invokedCbs (StateManager.notifySubscribers s key nv ov) =
      (StateManager.subsFor s key).map Cb.id ++
        (StateManager.subsFor s "*").map Cb.id := by
  unfold StateManager.notifySubscribers
  rw [invokedCbs_append, invokedCbs_call_map, invokedCbs_callW_map]

theorem invokedCbs_autoPersist (s : StateManager) (k : String) (v : JVal) :
    invokedCbs (StateManager.autoPersist s k v).2 = [] := by
  unfold StateManager.autoPersist StateManager.persistState
  split <;> rfl

/-- C5: during a state-change notification every callback registered for
the changed key is invoked, in registration order, followed by every
wildcard callback — with each callback's own outcome (threw or not)
recorded and the loop never cut short by a throwing callback (first
conjunct); a callback registered for the key is always invoked with
`(newValue, oldValue)` whatever the other callbacks do (second conjunct);
and an effective `setState` has already produced exactly these
invocations in its returned trace — notification is synchronous within
`setState` (third conjunct). -/
theorem C5_subscriber_exceptions_isolated :
    (∀ (s : StateManager) (key : String) (nv ov : JVal),
      invokedCbs (StateManager.notifySubscribers s key nv ov) =
        (StateManager.subsFor s key).map Cb.id ++
          (StateManager.subsFor s "*").map Cb.id) ∧
    (∀ (s : StateManager) (key : String) (nv ov : JVal) (cb : Cb),
      cb ∈ StateManager.subsFor s key →
      Ev.call cb.id cb.throws key nv ov ∈
        StateManager.notifySubscribers s key nv ov) ∧
    (∀ (s : StateManager) (key : String) (v : JVal),
      deepEqual (jsGet s.state key) v = false →
      invokedCbs (StateManager.setState s key v).2 =
        (StateManager.subsFor s key).map Cb.id ++
          (StateManager.subsFor s "*").map Cb.id) := by
  refine ⟨invokedCbs_notifySubscribers, ?_, ?_⟩
  · intro s key nv ov cb hmem
    unfold StateManager.notifySubscribers
    exact List.mem_append_left _ (List.mem_map.mpr ⟨cb, hmem, rfl⟩)
  · intro s key v h
    simp only [StateManager.setState, h, Bool.false_eq_true, if_false]
    rw [invokedCbs_append, invokedCbs_autoPersist,
      invokedCbs_notifySubscribers, List.append_nil]
    rfl

/-- A manager whose first `user` subscriber throws: the later subscriber
for the same key and the wildcard subscriber are still invoked. -/
def sampleSMThrowing : StateManager :=
  { sampleSM with
    subscribers := [("user", [⟨0, true⟩, ⟨1, false⟩]), ("*", [⟨9, false⟩])] }

/-- Witness for C5 on a manager whose first subscriber throws. -/
theorem C5_subscriber_exceptions_isolated_witness :
    invokedCbs (StateManager.notifySubscribers sampleSMThrowing "user"
        (.num 2) (.num 1)) =
      (StateManager.subsFor sampleSMThrowing "user").map Cb.id ++
        (StateManager.subsFor sampleSMThrowing "*").map Cb.id ∧
    Ev.call 1 false "user" (.num 2) (.num 1) ∈
      StateManager.notifySubscribers sampleSMThrowing "user"
        (.num 2) (.num 1) ∧
    invokedCbs (StateManager.setState sampleSMThrowing "user" (.num 2)).2 =
      (StateManager.subsFor sampleSMThrowing "user").map Cb.id ++
        (StateManager.subsFor sampleSMThrowing "*").map Cb.id :=
  ⟨C5_subscriber_exceptions_isolated.1 sampleSMThrowing "user"
      (.num 2) (.num 1),
    C5_subscriber_exceptions_isolated.2.1 sampleSMThrowing "user"
      (.num 2) (.num 1) ⟨1, false⟩ (by decide),
    C5_subscriber_exceptions_isolated.2.2 sampleSMThrowing "user"
      (.num 2) (by decide)⟩


/-! ## Sensitive-clear claim -/

theorem jsHas_jsDelete_false {κ α : Type} [BEq κ] (l : List (κ × α))
    (x y : κ) (h : jsHas l y = false) : jsHas (jsDelete l x) y = false := by
  induction l with
  | nil => simp
  | cons p rest ih =>
    simp only [jsHas_cons, Bool.or_eq_false_iff] at h
    cases hp : p.1 == x with
    | false => simp [hp, h.1, ih h.2]
    | true => simp [hp, ih h.2]

theorem foldl_append_bind {α β : Type} (f : α → List β) :
    ∀ (l : List α) (acc : List β),
      l.foldl (fun es x => es ++ f x) acc = acc ++ l.flatMap f
  | [], acc => by simp
  | x :: l, acc => by
    rw [List.foldl_cons, foldl_append_bind f l (acc ++ f x)]
    simp

/-- The delete-collect loop of `clearSensitiveData`: reads at keys outside
the walked set are unchanged. -/
theorem clearFold_fst_get (ks : List String) :
    ∀ (p : List (String × JVal) × List (String × JVal)) (k' : String)
      (d : JVal), k' ∉ ks →
      jsGetD (ks.foldl
        (fun (acc : List (String × JVal) × List (String × JVal)) k =>
          if jsHas acc.1 k then
            (jsDelete acc.1 k, acc.2 ++ [(k, jsGet acc.1 k)])
          else acc) p).1 k' d = jsGetD p.1 k' d := by
  induction ks with
  | nil => intro p k' d _; rfl
  | cons k ks ih =>
    intro p k' d h
    have hne : k' ≠ k := fun he => h (he ▸ List.mem_cons_self k ks)
    have htl : k' ∉ ks := fun hm => h (List.mem_cons_of_mem _ hm)
    rw [List.foldl_cons]
    by_cases hk : jsHas p.1 k
    · simp only [hk, if_true]
      rw [ih _ k' d htl]
      exact jsGetD_jsDelete_ne p.1 k k' d hne
    · simp only [hk, if_false]
      exact ih p k' d htl

/-- Presence at keys outside the walked set is unchanged. -/
theorem clearFold_fst_has (ks : List String) :
    ∀ (p : List (String × JVal) × List (String × JVal)) (k' : String),
      k' ∉ ks →
      jsHas (ks.foldl
        (fun (acc : List (String × JVal) × List (String × JVal)) k =>
          if jsHas acc.1 k then
            (jsDelete acc.1 k, acc.2 ++ [(k, jsGet acc.1 k)])
          else acc) p).1 k' = jsHas p.1 k' := by
  induction ks with
  | nil => intro p k' _; rfl
  | cons k ks ih =>
    intro p k' h
    have hne : k' ≠ k := fun he => h (he ▸ List.mem_cons_self k ks)
    have htl : k' ∉ ks := fun hm => h (List.mem_cons_of_mem _ hm)
    rw [List.foldl_cons]
    by_cases hk : jsHas p.1 k
    · simp only [hk, if_true]
      rw [ih _ k' htl]
      exact jsHas_jsDelete_ne p.1 k k' hne
    · simp only [hk, if_false]
      exact ih p k' htl

/-- The loop never re-adds a key. -/
theorem clearFold_fst_absent (ks : List String) :
    ∀ (p : List (String × JVal) × List (String × JVal)) (x : String),
      jsHas p.1 x = false →
      jsHas (ks.foldl
        (fun (acc : List (String × JVal) × List (String × JVal)) k =>
          if jsHas acc.1 k then
            (jsDelete acc.1 k, acc.2 ++ [(k, jsGet acc.1 k)])
          else acc) p).1 x = false := by
  induction ks with
  | nil => intro p x h; exact h
  | cons k ks ih =>
    intro p x h
    rw [List.foldl_cons]
    by_cases hk : jsHas p.1 k
    · simp only [hk, if_true]
      exact ih _ x (jsHas_jsDelete_false p.1 k x h)
    · simp only [hk, if_false]
      exact ih p x h

/-- Every walked key is absent afterwards. -/
theorem clearFold_fst_member (ks : List String) :
    ∀ (p : List (String × JVal) × List (String × JVal)) (k : String),
      k ∈ ks →
      jsHas (ks.foldl
        (fun (acc : List (String × JVal) × List (String × JVal)) k =>
          if jsHas acc.1 k then
            (jsDelete acc.1 k, acc.2 ++ [(k, jsGet acc.1 k)])
          else acc) p).1 k = false := by
  induction ks with
  | nil => intro p k h; simp at h
  | cons k0 ks ih =>
    intro p k h
    rw [List.foldl_cons]
    rcases List.mem_cons.mp h with he | hm
    · subst he
      by_cases hk : jsHas p.1 k
      · simp only [hk, if_true]
        exact clearFold_fst_absent ks _ k (jsHas_jsDelete_self p.1 k)
      · simp only [hk, if_false]
        exact clearFold_fst_absent ks p k (by simpa using hk)
    · by_cases hk : jsHas p.1 k0
      · simp only [hk, if_true]
        exact ih _ k hm
      · simp only [hk, if_false]
        exact ih p k hm

/-- With distinct walked keys, the collected old values are exactly the
present keys paired with their pre-loop values, in walk order. -/
theorem clearFold_snd (ks : List String) :
    ∀ (st : List (String × JVal)) (acc : List (String × JVal)),
      ks.Nodup →
      (ks.foldl
        (fun (acc : List (String × JVal) × List (String × JVal)) k =>
          if jsHas acc.1 k then
            (jsDelete acc.1 k, acc.2 ++ [(k, jsGet acc.1 k)])
          else acc) (st, acc)).2 =
      acc ++ (ks.filter (fun k => jsHas st k)).map
        (fun k => (k, jsGet st k)) := by
  induction ks with
  | nil => intro st acc _; simp
  | cons k ks ih =>
    intro st acc hnd
    have hk0 : k ∉ ks := (List.nodup_cons.mp hnd).1
    have hnd' : ks.Nodup := (List.nodup_cons.mp hnd).2
    rw [List.foldl_cons]
    by_cases hk : jsHas st k
    · simp only [hk, if_true]
      rw [ih (jsDelete st k) (acc ++ [(k, jsGet st k)]) hnd']
      have hfil : ks.filter (fun x => jsHas (jsDelete st k) x) =
          ks.filter (fun x => jsHas st x) := by
        apply List.filter_congr
        intro x hx
        exact jsHas_jsDelete_ne st k x (fun he => hk0 (he ▸ hx))
      have hmap : (ks.filter (fun x => jsHas st x)).map
            (fun x => (x, jsGet (jsDelete st k) x)) =
          (ks.filter (fun x => jsHas st x)).map (fun x => (x, jsGet st x)) := by
        apply List.map_congr_left
        intro x hx
        have hxks : x ∈ ks := (List.mem_filter.mp hx).1
        have hne : x ≠ k := fun he => hk0 (he ▸ hxks)
        rw [jsGet_eq_jsGetD, jsGet_eq_jsGetD,
          jsGetD_jsDelete_ne st k x .undefined hne]
      rw [hfil, hmap]
      simp [hk]
    · have hkf : jsHas st k = false := by simpa using hk
      simp only [hkf, Bool.false_eq_true, if_false]
      rw [ih st acc hnd']
      simp [hkf]

/-- The `removePersisted` loop of `clearSensitiveData`: its event tail. -/
theorem remFold_snd (ks : List String) :
    ∀ (t : StateManager) (es : List Ev),
      (ks.foldl (fun (acc : StateManager × List Ev) k =>
        ((StateManager.removePersisted acc.1 k).1,
          acc.2 ++ (StateManager.removePersisted acc.1 k).2)) (t, es)).2 =
      es ++ ks.map (fun k => Ev.storageRemove ("pos_state_" ++ k)) := by
  induction ks with
  | nil => intro t es; simp
  | cons k ks ih =>
    intro t es
    rw [List.foldl_cons, ih]
    simp [StateManager.removePersisted]

/-- The `removePersisted` loop touches only `storage`. -/
theorem remFold_fst_state (ks : List String) :
    ∀ (t : StateManager) (es : List Ev),
      (ks.foldl (fun (acc : StateManager × List Ev) k =>
        ((StateManager.removePersisted acc.1 k).1,
          acc.2 ++ (StateManager.removePersisted acc.1 k).2)) (t, es)).1.state
        = t.state := by
  induction ks with
  | nil => intro t es; rfl
  | cons k ks ih =>
    intro t es
    rw [List.foldl_cons, ih]
    rfl

theorem remFold_fst_history (ks : List String) :
    ∀ (t : StateManager) (es : List Ev),
      (ks.foldl (fun (acc : StateManager × List Ev) k =>
        ((StateManager.removePersisted acc.1 k).1,
          acc.2 ++ (StateManager.removePersisted acc.1 k).2))
        (t, es)).1.history = t.history := by
  induction ks with
  | nil => intro t es; rfl
  | cons k ks ih =>
    intro t es
    rw [List.foldl_cons, ih]
    rfl

theorem remFold_fst_subscribers (ks : List String) :
    ∀ (t : StateManager) (es : List Ev),
      (ks.foldl (fun (acc : StateManager × List Ev) k =>
        ((StateManager.removePersisted acc.1 k).1,
          acc.2 ++ (StateManager.removePersisted acc.1 k).2))
        (t, es)).1.subscribers = t.subscribers := by
  induction ks with
  | nil => intro t es; rfl
  | cons k ks ih =>
    intro t es
    rw [List.foldl_cons, ih]
    rfl

theorem remFold_fst_storage (ks : List String) :
    ∀ (t : StateManager) (es : List Ev),
      (ks.foldl (fun (acc : StateManager × List Ev) k =>
        ((StateManager.removePersisted acc.1 k).1,
          acc.2 ++ (StateManager.removePersisted acc.1 k).2))
        (t, es)).1.storage =
      ks.foldl (fun st k => jsDelete st ("pos_state_" ++ k)) t.storage := by
  induction ks with
  | nil => intro t es; rfl
  | cons k ks ih =>
    intro t es
    rw [List.foldl_cons, ih, List.foldl_cons]
    rfl

theorem delFold_absent (ks : List String) :
    ∀ (stor : List (String × String)) (x : String), jsHas stor x = false →
      jsHas (ks.foldl (fun st k => jsDelete st ("pos_state_" ++ k)) stor) x =
        false := by
  induction ks with
  | nil => intro stor x h; exact h
  | cons k ks ih =>
    intro stor x h
    rw [List.foldl_cons]
    exact ih _ x (jsHas_jsDelete_false stor _ x h)

theorem delFold_member (ks : List String) :
    ∀ (stor : List (String × String)) (k : String), k ∈ ks →
      jsHas (ks.foldl (fun st k => jsDelete st ("pos_state_" ++ k)) stor)
        ("pos_state_" ++ k) = false := by
  induction ks with
  | nil => intro stor k h; simp at h
  | cons k0 ks ih =>
    intro stor k h
    rw [List.foldl_cons]
    rcases List.mem_cons.mp h with he | hm
    · subst he
      exact delFold_absent ks _ _ (jsHas_jsDelete_self stor _)
    · exact ih _ k hm


/-- C4: `clearSensitiveData` removes from the state exactly the sensitive
keys currently present (conjuncts 1-2: non-sensitive keys keep value and
presence, every sensitive key is absent afterwards), notifies the
subscribers of each removed key with `newValue = undefined` (conjunct 3),
purges the durable-storage copy of every sensitive key (conjunct 4),
changes neither history nor subscribers (conjuncts 5-6), and the
constructor's sensitive set is `user`, `token`, `cart`, `currentSale`
(conjunct 7).  `sensitiveKeys` is a JavaScript `Set`, hence the
distinct-keys hypothesis. -/
theorem C4_clearSensitiveData_exact (s : StateManager)
    (hnd : s.sensitiveKeys.Nodup) :
    (∀ k, k ∉ s.sensitiveKeys →
      jsGet (StateManager.clearSensitiveData s).1.state k = jsGet s.state k ∧
      jsHas (StateManager.clearSensitiveData s).1.state k =
        jsHas s.state k) ∧
    (∀ k, k ∈ s.sensitiveKeys →
      jsHas (StateManager.clearSensitiveData s).1.state k = false) ∧
    (∀ k, k ∈ s.sensitiveKeys → jsHas s.state k = true →
      ∀ cb ∈ StateManager.subsFor s k,
        Ev.call cb.id cb.throws k .undefined (jsGet s.state k) ∈
          (StateManager.clearSensitiveData s).2) ∧
    (∀ k, k ∈ s.sensitiveKeys →
      jsHas (StateManager.clearSensitiveData s).1.storage
        ("pos_state_" ++ k) = false) ∧
    (StateManager.clearSensitiveData s).1.history = s.history ∧
    (StateManager.clearSensitiveData s).1.subscribers = s.subscribers ∧
    StateManager.constructorSensitiveKeys =
      ["user", "token", "cart", "currentSale"] := by
  refine ⟨?_, ?_, ?_, ?_, ?_, ?_, rfl⟩
  · intro k hk
    constructor
    · rw [jsGet_eq_jsGetD, jsGet_eq_jsGetD]
      simp only [StateManager.clearSensitiveData]
      rw [remFold_fst_state]
      exact clearFold_fst_get s.sensitiveKeys (s.state, []) k .undefined hk
    · simp only [StateManager.clearSensitiveData]
      rw [remFold_fst_state]
      exact clearFold_fst_has s.sensitiveKeys (s.state, []) k hk
  · intro k hk
    simp only [StateManager.clearSensitiveData]
    rw [remFold_fst_state]
    exact clearFold_fst_member s.sensitiveKeys (s.state, []) k hk
  · intro k hk hpres cb hcb
    simp only [StateManager.clearSensitiveData]
    rw [remFold_snd]
    apply List.mem_append_left
    rw [foldl_append_bind, clearFold_snd s.sensitiveKeys s.state [] hnd]
    simp only [List.nil_append]
    apply List.mem_flatMap.mpr
    refine ⟨(k, jsGet s.state k), ?_, ?_⟩
    · exact List.mem_map.mpr ⟨k, List.mem_filter.mpr ⟨hk, hpres⟩, rfl⟩
    · unfold StateManager.notifySubscribers
      exact List.mem_append_left _ (List.mem_map.mpr ⟨cb, hcb, rfl⟩)
  · intro k hk
    simp only [StateManager.clearSensitiveData]
    rw [remFold_fst_storage]
    exact delFold_member s.sensitiveKeys s.storage k hk
  · simp only [StateManager.clearSensitiveData]
    rw [remFold_fst_history]
  · simp only [StateManager.clearSensitiveData]
    rw [remFold_fst_subscribers]

/-- A manager holding a sensitive `token` and a non-sensitive `theme`,
with a `token` subscriber and a persisted copy of `theme` in storage. -/
def sampleSensSM : StateManager :=
  { state := [("token", .str "abc"), ("theme", .str "dark")],
    subscribers := [("token", [⟨3, false⟩]), ("*", [⟨9, false⟩])],
    history := [], maxHistorySize := 50,
    sensitiveKeys := StateManager.constructorSensitiveKeys,
    persistedKeys := StateManager.setupPersistedKeys,
    storage := [("pos_state_theme", "x")], now := 0 }

/-- Witness for C4 at a concrete manager (the spec's own example: `token`
removed and its subscriber notified with `undefined`, `theme`
untouched). -/
theorem C4_clearSensitiveData_exact_witness :
    ((∀ k, k ∉ sampleSensSM.sensitiveKeys →
      jsGet (StateManager.clearSensitiveData sampleSensSM).1.state k =
        jsGet sampleSensSM.state k ∧
      jsHas (StateManager.clearSensitiveData sampleSensSM).1.state k =
        jsHas sampleSensSM.state k) ∧
    (∀ k, k ∈ sampleSensSM.sensitiveKeys →
      jsHas (StateManager.clearSensitiveData sampleSensSM).1.state k =
        false) ∧
    (∀ k, k ∈ sampleSensSM.sensitiveKeys →
      jsHas sampleSensSM.state k = true →
      ∀ cb ∈ StateManager.subsFor sampleSensSM k,
        Ev.call cb.id cb.throws k .undefined (jsGet sampleSensSM.state k) ∈
          (StateManager.clearSensitiveData sampleSensSM).2) ∧
    (∀ k, k ∈ sampleSensSM.sensitiveKeys →
      jsHas (StateManager.clearSensitiveData sampleSensSM).1.storage
        ("pos_state_" ++ k) = false) ∧
    (StateManager.clearSensitiveData sampleSensSM).1.history =
      sampleSensSM.history ∧
    (StateManager.clearSensitiveData sampleSensSM).1.subscribers =
      sampleSensSM.subscribers ∧
    StateManager.constructorSensitiveKeys =
      ["user", "token", "cart", "currentSale"]) :=
  C4_clearSensitiveData_exact sampleSensSM (by decide)


/-! ## History-bound claim -/

namespace StateManager

/-- The bounded-prepend fold keeps the history bounded by the cap. -/
theorem foldTake_length_le (M : Nat) :
    ∀ (es : List HistoryEntry) (h : List HistoryEntry), h.length ≤ M →
      (es.foldl (fun h e => (e :: h).take M) h).length ≤ M := by
  intro es
  induction es with
  | nil => intro h hh; exact hh
  | cons e es ih =>
    intro h _
    rw [List.foldl_cons]
    refine ih _ ?_
    rw [List.length_take]
    exact min_le_left _ _

/-- The notify/auto-persist loop of `batchUpdate` does not touch the
history. -/
theorem notifFold_fst_history (olds : List (String × JVal)) :
    ∀ (us : List (String × JVal)) (p : StateManager × List Ev),
      (us.foldl (fun acc kv =>
        ((autoPersist acc.1 kv.1 kv.2).1,
          acc.2 ++ notifySubscribers acc.1 kv.1 kv.2
              (jsGetD olds kv.1 .undefined)
            ++ (autoPersist acc.1 kv.1 kv.2).2)) p).1.history =
      p.1.history := by
  intro us
  induction us with
  | nil => intro p; rfl
  | cons kv us ih =>
    intro p
    rw [List.foldl_cons, ih]
    simp

theorem notifFold_fst_maxHistorySize (olds : List (String × JVal)) :
    ∀ (us : List (String × JVal)) (p : StateManager × List Ev),
      (us.foldl (fun acc kv =>
        ((autoPersist acc.1 kv.1 kv.2).1,
          acc.2 ++ notifySubscribers acc.1 kv.1 kv.2
              (jsGetD olds kv.1 .undefined)
            ++ (autoPersist acc.1 kv.1 kv.2).2)) p).1.maxHistorySize =
      p.1.maxHistorySize := by
  intro us
  induction us with
  | nil => intro p; rfl
  | cons kv us ih =>
    intro p
    rw [List.foldl_cons, ih]
    simp

/-- The mutation loop of `batchUpdate`: its history is the bounded prepend
of one entry per pair. -/
theorem mutFold_history (olds : List (String × JVal)) :
    ∀ (us : List (String × JVal)) (t : StateManager),
      (us.foldl (fun acc kv =>
        addToHistory { acc with state := jsSet acc.state kv.1 kv.2 }
          kv.1 (jsGetD olds kv.1 .undefined) kv.2) t).history =
      (batchEntries olds us t.now).foldl
        (fun h e => (e :: h).take t.maxHistorySize) t.history := by
  intro us
  induction us with
  | nil => intro t; rfl
  | cons kv us ih =>
    intro t
    rw [List.foldl_cons, ih]
    simp only [batchEntries, List.foldl_cons, addToHistory_now,
      addToHistory_maxHistorySize, addToHistory_history]

theorem mutFold_maxHistorySize (olds : List (String × JVal)) :
    ∀ (us : List (String × JVal)) (t : StateManager),
      (us.foldl (fun acc kv =>
        addToHistory { acc with state := jsSet acc.state kv.1 kv.2 }
          kv.1 (jsGetD olds kv.1 .undefined) kv.2) t).maxHistorySize =
      t.maxHistorySize := by
  intro us
  induction us with
  | nil => intro t; rfl
  | cons kv us ih =>
    intro t
    rw [List.foldl_cons, ih]
    rfl

/-- One operation: the new history is the bounded prepend of its entries
(one per effective mutation), and the cap field is unchanged. -/
theorem applyOp_history (s : StateManager) (op : Op) :
    (applyOp s op).1.history =
      (opEntries s op).foldl (fun h e => (e :: h).take s.maxHistorySize)
        s.history ∧
    (applyOp s op).1.maxHistorySize = s.maxHistorySize := by
  cases op with
  | set k v =>
    by_cases h : deepEqual (jsGet s.state k) v = true
    · constructor <;>
        simp [applyOp, setState, h, opEntries]
    · have hf : deepEqual (jsGet s.state k) v = false := by simpa using h
      constructor
      · rw [applyOp]
        rw [setState_fst_history s k v hf]
        simp [opEntries, hf]
      · rw [applyOp]
        exact setState_fst_maxHistorySize s k v
  | remove k =>
    by_cases h : jsHas s.state k = true
    · constructor <;>
        simp [applyOp, removeState, h, opEntries, addToHistory_history]
    · have hf : jsHas s.state k = false := by simpa using h
      constructor <;> simp [applyOp, removeState, hf, opEntries]
  | batch us =>
    constructor
    · simp only [applyOp, batchUpdate]
      rw [notifFold_fst_history, mutFold_history]
      rfl
    · simp only [applyOp, batchUpdate]
      rw [notifFold_fst_maxHistorySize, mutFold_maxHistorySize]

/-- A run of operations: the final history is the bounded prepend of all
entries, oldest first. -/
theorem applyOps_history : ∀ (ops : List Op) (s : StateManager),
    (applyOps s ops).history =
      (opsEntries s ops).foldl (fun h e => (e :: h).take s.maxHistorySize)
        s.history ∧
    (applyOps s ops).maxHistorySize = s.maxHistorySize
  | [], s => ⟨rfl, rfl⟩
  | op :: ops, s => by
    have h1 := applyOp_history s op
    have h2 := applyOps_history ops (applyOp s op).1
    constructor
    · rw [applyOps, h2.1, h1.2, h1.1, opsEntries, List.foldl_append]
    · rw [applyOps, h2.2, h1.2]

end StateManager

/-- C6: after any sequence of `setState`/`removeState`/`batchUpdate`
operations, the history is exactly the bounded (cap 50) newest-first
prepend of one entry `{key, oldValue, newValue, timestamp}` per effective
mutation (`opEntries`/`opsEntries` list them, oldest first, straight from
the operations' code paths); its length never exceeds 50; and when an
entry is added at the cap it is exactly the oldest entry that is evicted
(last conjunct). -/
theorem C6_history_cap_eviction (s : StateManager)
    (ops : List StateManager.Op) (hcap : s.maxHistorySize = 50)
    (hlen : s.history.length ≤ 50) :
    (StateManager.applyOps s ops).history.length ≤ 50 ∧
    (StateManager.applyOps s ops).history =
      (StateManager.opsEntries s ops).foldl
        (fun h e => (e :: h).take 50) s.history ∧
    (∀ (t : StateManager) (k : String) (ov nv : JVal),
      t.maxHistorySize = 50 → t.history.length = 50 →
      (StateManager.addToHistory t k ov nv).history =
        (⟨k, ov, nv, t.now⟩ : HistoryEntry) :: t.history.dropLast) := by
  have hmain := (StateManager.applyOps_history ops s).1
  rw [hcap] at hmain
  refine ⟨?_, hmain, ?_⟩
  · rw [hmain]
    exact StateManager.foldTake_length_le 50 _ s.history hlen
  · intro t k ov nv htcap htlen
    rw [StateManager.addToHistory_history, htcap]
    have h49 : (50 : Nat) = 49 + 1 := rfl
    have hdrop : t.history.dropLast = t.history.take 49 := by
      rw [List.dropLast_eq_take, htlen]
    rw [h49, List.take_succ_cons, hdrop]


/-- Witness for C6 at a concrete manager and a run containing all three
mutating operations. -/
theorem C6_history_cap_eviction_witness :
    ((StateManager.applyOps sampleSM
        [.set "a" (.num 1), .remove "user", .batch [("b", .num 2)]]
      ).history.length ≤ 50 ∧
    (StateManager.applyOps sampleSM
        [.set "a" (.num 1), .remove "user", .batch [("b", .num 2)]]
      ).history =
      (StateManager.opsEntries sampleSM
        [.set "a" (.num 1), .remove "user", .batch [("b", .num 2)]]).foldl
        (fun h e => (e :: h).take 50) sampleSM.history ∧
    (∀ (t : StateManager) (k : String) (ov nv : JVal),
      t.maxHistorySize = 50 → t.history.length = 50 →
      (StateManager.addToHistory t k ov nv).history =
        (⟨k, ov, nv, t.now⟩ : HistoryEntry) :: t.history.dropLast)) :=
  C6_history_cap_eviction sampleSM
    [.set "a" (.num 1), .remove "user", .batch [("b", .num 2)]]
    (by decide) (by decide)


/-! ## Batch-update claim

`batchUpdate` differs from a `setState` sequence in two ways: it performs
no deep-equality skip (the counterexample below), and its wildcard
subscribers see the fully-updated snapshot.  The amended equivalence is
proved for a batch whose every pair actually changes its key (and whose
keys are distinct, as the keys of a JavaScript object literal are). -/

/-- Erase the full-state snapshot from a wildcard-subscriber event. -/
def stripSnap : Ev → Ev
  | .callW cb th k nv ov _ => .callW cb th k nv ov []
  | e => e

/-- The snapshots carried by the wildcard-subscriber events of a trace. -/
def wildcardSnaps : List Ev → List (List (String × JVal))
  | [] => []
  | .callW _ _ _ _ _ snap :: rest => snap :: wildcardSnaps rest
  | .call _ _ _ _ _ :: rest => wildcardSnaps rest
  | .storageSet _ _ :: rest => wildcardSnaps rest
  | .storageRemove _ :: rest => wildcardSnaps rest

/-- The persistence-write events `autoPersist` produces. -/
def persistEvs (pk : List String) (k : String) (v : JVal) : List Ev :=
  if pk.contains k then
    [.storageSet ("pos_state_" ++ k) ((stringifyVal v).getD "undefined")]
  else []

/-- A notification chunk with the wildcard snapshot erased. -/
def strippedNotify (subs : List (String × List Cb)) (k : String)
    (nv ov : JVal) : List Ev :=
  (jsGetD subs k []).map (fun cb => .call cb.id cb.throws k nv ov) ++
    (jsGetD subs "*" []).map (fun cb => .callW cb.id cb.throws k nv ov [])

namespace StateManager

theorem autoPersist_snd (t : StateManager) (k : String) (v : JVal) :
    (autoPersist t k v).2 = persistEvs t.persistedKeys k v := by
  unfold autoPersist persistState persistEvs
  split <;> rfl

theorem notifySubscribers_congr (t u : StateManager) (k : String)
    (nv ov : JVal) (hsub : t.subscribers = u.subscribers)
    (hst : t.state = u.state) :
    notifySubscribers t k nv ov = notifySubscribers u k nv ov := by
  unfold notifySubscribers subsFor
  rw [hsub, hst]

theorem notifySubscribers_strip (t : StateManager) (k : String)
    (nv ov : JVal) :
    (notifySubscribers t k nv ov).map stripSnap =
      strippedNotify t.subscribers k nv ov := by
  unfold notifySubscribers strippedNotify subsFor
  rw [List.map_append, List.map_map, List.map_map]
  rfl

theorem persistEvs_strip (pk : List String) (k : String) (v : JVal) :
    (persistEvs pk k v).map stripSnap = persistEvs pk k v := by
  unfold persistEvs
  split <;> rfl

theorem wildcardSnaps_append (a b : List Ev) :
    wildcardSnaps (a ++ b) = wildcardSnaps a ++ wildcardSnaps b := by
  induction a with
  | nil => rfl
  | cons e rest ih => cases e <;> simp [wildcardSnaps, ih]

theorem wildcardSnaps_notify (t : StateManager) (k : String) (nv ov : JVal) :
    ∀ snap ∈ wildcardSnaps (notifySubscribers t k nv ov), snap = t.state := by
  intro snap hsnap
  unfold notifySubscribers at hsnap
  rw [wildcardSnaps_append] at hsnap
  rcases List.mem_append.mp hsnap with h | h
  · exfalso
    revert h
    generalize subsFor t k = l
    induction l with
    | nil => simp [wildcardSnaps]
    | cons cb rest ih => simpa [wildcardSnaps] using ih
  · revert h
    generalize subsFor t "*" = l
    induction l with
    | nil => simp [wildcardSnaps]
    | cons cb rest ih =>
      simp only [List.map_cons, wildcardSnaps]
      intro h
      rcases List.mem_cons.mp h with he | hm
      · exact he
      · exact ih hm

theorem wildcardSnaps_persistEvs (pk : List String) (k : String) (v : JVal) :
    wildcardSnaps (persistEvs pk k v) = [] := by
  unfold persistEvs
  split <;> rfl

theorem setState_fst_storage (s : StateManager) (key : String) (v : JVal)
    (h : deepEqual (jsGet s.state key) v = false) :
    (setState s key v).1.storage =
      (if s.persistedKeys.contains key then
        jsSet s.storage ("pos_state_" ++ key)
          ((stringifyVal v).getD "undefined")
      else s.storage) := by
  simp only [setState, h, Bool.false_eq_true, if_false]
  by_cases hp : key ∈ s.persistedKeys <;>
    simp [autoPersist, persistState, hp]

theorem setState_fst_now (s : StateManager) (key : String) (v : JVal)
    (h : deepEqual (jsGet s.state key) v = false) :
    (setState s key v).1.now = s.now + 1 := by
  simp [setState, h]

theorem setState_fst_sensitiveKeys (s : StateManager) (key : String)
    (v : JVal) : (setState s key v).1.sensitiveKeys = s.sensitiveKeys := by
  by_cases h : deepEqual (jsGet s.state key) v = true <;> simp [setState, h]

theorem setState_fst_persistedKeys (s : StateManager) (key : String)
    (v : JVal) : (setState s key v).1.persistedKeys = s.persistedKeys := by
  by_cases h : deepEqual (jsGet s.state key) v = true <;> simp [setState, h]

/-- The stripped trace of an effective `setState`. -/
theorem setState_snd_strip (s : StateManager) (key : String) (v : JVal)
    (h : deepEqual (jsGet s.state key) v = false) :
    (setState s key v).2.map stripSnap =
      strippedNotify s.subscribers key v (jsGet s.state key) ++
        persistEvs s.persistedKeys key v := by
  simp only [setState, h, Bool.false_eq_true, if_false]
  rw [List.map_append, autoPersist_snd, persistEvs_strip,
    notifySubscribers_strip]
  rfl

/-- The wildcard snapshots of an effective `setState` all show the
post-update state. -/
theorem setState_snd_snaps (s : StateManager) (key : String) (v : JVal)
    (h : deepEqual (jsGet s.state key) v = false) :
    ∀ snap ∈ wildcardSnaps (setState s key v).2,
      snap = jsSet s.state key v := by
  intro snap hsnap
  simp only [setState, h, Bool.false_eq_true, if_false] at hsnap
  rw [wildcardSnaps_append, autoPersist_snd, wildcardSnaps_persistEvs,
    List.append_nil] at hsnap
  exact wildcardSnaps_notify _ key v (jsGet s.state key) snap hsnap

end StateManager


/-- Lookup in a key-function-built association list. -/
theorem jsGetD_map_fst (l : List (String × JVal)) (F : String → JVal)
    (k : String) (d : JVal) :
    jsGetD (l.map fun y => (y.1, F y.1)) k d =
      (if jsHas l k then F k else d) := by
  induction l with
  | nil => simp
  | cons y rest ih =>
    cases hy : y.1 == k with
    | false => simp [hy, ih]
    | true =>
      have hy' : y.1 = k := by simpa using hy
      simp [hy, hy']

/-- Snapshot collection distributes over a chunked trace. -/
theorem wildcardSnaps_flatMap {α : Type} (l : List α) (f : α → List Ev)
    (target : List (String × JVal))
    (h : ∀ x ∈ l, ∀ sn ∈ wildcardSnaps (f x), sn = target) :
    ∀ sn ∈ wildcardSnaps (l.flatMap f), sn = target := by
  induction l with
  | nil => simp [wildcardSnaps]
  | cons x rest ih =>
    intro sn hsn
    rw [List.flatMap_cons, StateManager.wildcardSnaps_append] at hsn
    rcases List.mem_append.mp hsn with hm | hm
    · exact h x (List.mem_cons_self _ _) sn hm
    · exact ih (fun y hy => h y (List.mem_cons_of_mem _ hy)) sn hm

namespace StateManager

theorem autoPersist_fst_storage (t : StateManager) (k : String) (v : JVal) :
    (autoPersist t k v).1.storage =
      (if t.persistedKeys.contains k then
        jsSet t.storage ("pos_state_" ++ k) ((stringifyVal v).getD "undefined")
      else t.storage) := by
  unfold autoPersist persistState
  split <;> rfl

theorem batchEntries_cons (olds : List (String × JVal))
    (kv : String × JVal) (rest : List (String × JVal)) (t : Nat) :
    batchEntries olds (kv :: rest) t =
      (⟨kv.1, jsGetD olds kv.1 .undefined, kv.2, t⟩ : HistoryEntry) ::
        batchEntries olds rest (t + 1) := rfl

theorem batchEntries_congr (o1 o2 : List (String × JVal)) :
    ∀ (us : List (String × JVal)) (t : Nat),
      (∀ kv ∈ us, jsGetD o1 kv.1 .undefined = jsGetD o2 kv.1 .undefined) →
      batchEntries o1 us t = batchEntries o2 us t := by
  intro us
  induction us with
  | nil => intro t _; rfl
  | cons kv rest ih =>
    intro t h
    unfold batchEntries
    rw [h kv (List.mem_cons_self _ _),
      ih (t + 1) (fun kv' h' => h kv' (List.mem_cons_of_mem _ h'))]

/-! Component lemmas for the mutation loop of `batchUpdate`. -/

theorem mutFold_state (olds : List (String × JVal)) :
    ∀ (us : List (String × JVal)) (t : StateManager),
      (us.foldl (fun acc kv =>
        addToHistory { acc with state := jsSet acc.state kv.1 kv.2 }
          kv.1 (jsGetD olds kv.1 .undefined) kv.2) t).state =
      us.foldl (fun st kv => jsSet st kv.1 kv.2) t.state := by
  intro us
  induction us with
  | nil => intro t; rfl
  | cons kv us ih =>
    intro t
    rw [List.foldl_cons, ih, List.foldl_cons]
    rfl

theorem mutFold_now (olds : List (String × JVal)) :
    ∀ (us : List (String × JVal)) (t : StateManager),
      (us.foldl (fun acc kv =>
        addToHistory { acc with state := jsSet acc.state kv.1 kv.2 }
          kv.1 (jsGetD olds kv.1 .undefined) kv.2) t).now = t.now + us.length := by
  intro us
  induction us with
  | nil => intro t; rfl
  | cons kv us ih =>
    intro t
    rw [List.foldl_cons, ih]
    simp [Nat.add_assoc, Nat.add_comm 1 us.length]

theorem mutFold_subscribers (olds : List (String × JVal)) :
    ∀ (us : List (String × JVal)) (t : StateManager),
      (us.foldl (fun acc kv =>
        addToHistory { acc with state := jsSet acc.state kv.1 kv.2 }
          kv.1 (jsGetD olds kv.1 .undefined) kv.2) t).subscribers =
        t.subscribers := by
  intro us
  induction us with
  | nil => intro t; rfl
  | cons kv us ih =>
    intro t
    rw [List.foldl_cons, ih]
    rfl

theorem mutFold_storage (olds : List (String × JVal)) :
    ∀ (us : List (String × JVal)) (t : StateManager),
      (us.foldl (fun acc kv =>
        addToHistory { acc with state := jsSet acc.state kv.1 kv.2 }
          kv.1 (jsGetD olds kv.1 .undefined) kv.2) t).storage = t.storage := by
  intro us
  induction us with
  | nil => intro t; rfl
  | cons kv us ih =>
    intro t
    rw [List.foldl_cons, ih]
    rfl

theorem mutFold_sensitiveKeys (olds : List (String × JVal)) :
    ∀ (us : List (String × JVal)) (t : StateManager),
      (us.foldl (fun acc kv =>
        addToHistory { acc with state := jsSet acc.state kv.1 kv.2 }
          kv.1 (jsGetD olds kv.1 .undefined) kv.2) t).sensitiveKeys =
        t.sensitiveKeys := by
  intro us
  induction us with
  | nil => intro t; rfl
  | cons kv us ih =>
    intro t
    rw [List.foldl_cons, ih]
    rfl

theorem mutFold_persistedKeys (olds : List (String × JVal)) :
    ∀ (us : List (String × JVal)) (t : StateManager),
      (us.foldl (fun acc kv =>
        addToHistory { acc with state := jsSet acc.state kv.1 kv.2 }
          kv.1 (jsGetD olds kv.1 .undefined) kv.2) t).persistedKeys =
        t.persistedKeys := by
  intro us
  induction us with
  | nil => intro t; rfl
  | cons kv us ih =>
    intro t
    rw [List.foldl_cons, ih]
    rfl

/-! Component lemmas for the notify/auto-persist loop of `batchUpdate`. -/

theorem notifFold_fst_state (olds : List (String × JVal)) :
    ∀ (us : List (String × JVal)) (p : StateManager × List Ev),
      (us.foldl (fun acc kv =>
        ((autoPersist acc.1 kv.1 kv.2).1,
          acc.2 ++ notifySubscribers acc.1 kv.1 kv.2
              (jsGetD olds kv.1 .undefined)
            ++ (autoPersist acc.1 kv.1 kv.2).2)) p).1.state = p.1.state := by
  intro us
  induction us with
  | nil => intro p; rfl
  | cons kv us ih =>
    intro p
    rw [List.foldl_cons, ih]
    simp

theorem notifFold_fst_subscribers (olds : List (String × JVal)) :
    ∀ (us : List (String × JVal)) (p : StateManager × List Ev),
      (us.foldl (fun acc kv =>
        ((autoPersist acc.1 kv.1 kv.2).1,
          acc.2 ++ notifySubscribers acc.1 kv.1 kv.2
              (jsGetD olds kv.1 .undefined)
            ++ (autoPersist acc.1 kv.1 kv.2).2)) p).1.subscribers =
        p.1.subscribers := by
  intro us
  induction us with
  | nil => intro p; rfl
  | cons kv us ih =>
    intro p
    rw [List.foldl_cons, ih]
    simp

theorem notifFold_fst_now (olds : List (String × JVal)) :
    ∀ (us : List (String × JVal)) (p : StateManager × List Ev),
      (us.foldl (fun acc kv =>
        ((autoPersist acc.1 kv.1 kv.2).1,
          acc.2 ++ notifySubscribers acc.1 kv.1 kv.2
              (jsGetD olds kv.1 .undefined)
            ++ (autoPersist acc.1 kv.1 kv.2).2)) p).1.now = p.1.now := by
  intro us
  induction us with
  | nil => intro p; rfl
  | cons kv us ih =>
    intro p
    rw [List.foldl_cons, ih]
    simp

theorem notifFold_fst_sensitiveKeys (olds : List (String × JVal)) :
    ∀ (us : List (String × JVal)) (p : StateManager × List Ev),
      (us.foldl (fun acc kv =>
        ((autoPersist acc.1 kv.1 kv.2).1,
          acc.2 ++ notifySubscribers acc.1 kv.1 kv.2
              (jsGetD olds kv.1 .undefined)
            ++ (autoPersist acc.1 kv.1 kv.2).2)) p).1.sensitiveKeys =
        p.1.sensitiveKeys := by
  intro us
  induction us with
  | nil => intro p; rfl
  | cons kv us ih =>
    intro p
    rw [List.foldl_cons, ih]
    simp

theorem notifFold_fst_persistedKeys (olds : List (String × JVal)) :
    ∀ (us : List (String × JVal)) (p : StateManager × List Ev),
      (us.foldl (fun acc kv =>
        ((autoPersist acc.1 kv.1 kv.2).1,
          acc.2 ++ notifySubscribers acc.1 kv.1 kv.2
              (jsGetD olds kv.1 .undefined)
            ++ (autoPersist acc.1 kv.1 kv.2).2)) p).1.persistedKeys =
        p.1.persistedKeys := by
  intro us
  induction us with
  | nil => intro p; rfl
  | cons kv us ih =>
    intro p
    rw [List.foldl_cons, ih]
    simp

theorem notifFold_fst_storage (olds : List (String × JVal)) :
    ∀ (us : List (String × JVal)) (p : StateManager × List Ev),
      (us.foldl (fun acc kv =>
        ((autoPersist acc.1 kv.1 kv.2).1,
          acc.2 ++ notifySubscribers acc.1 kv.1 kv.2
              (jsGetD olds kv.1 .undefined)
            ++ (autoPersist acc.1 kv.1 kv.2).2)) p).1.storage =
      us.foldl (fun stor kv =>
        if p.1.persistedKeys.contains kv.1 then
          jsSet stor ("pos_state_" ++ kv.1) ((stringifyVal kv.2).getD "undefined")
        else stor) p.1.storage := by
  intro us
  induction us with
  | nil => intro p; rfl
  | cons kv us ih =>
    intro p
    rw [List.foldl_cons, ih, List.foldl_cons, autoPersist_fst_storage]
    simp

/-- The trace of the notify/auto-persist loop: one notification chunk and
one persistence chunk per pair, all built from the loop's starting
manager (whose state and subscribers the loop never changes). -/
theorem notifFold_snd (olds : List (String × JVal)) :
    ∀ (us : List (String × JVal)) (p : StateManager × List Ev),
      (us.foldl (fun acc kv =>
        ((autoPersist acc.1 kv.1 kv.2).1,
          acc.2 ++ notifySubscribers acc.1 kv.1 kv.2
              (jsGetD olds kv.1 .undefined)
            ++ (autoPersist acc.1 kv.1 kv.2).2)) p).2 =
      p.2 ++ us.flatMap (fun kv =>
        notifySubscribers p.1 kv.1 kv.2 (jsGetD olds kv.1 .undefined) ++
          persistEvs p.1.persistedKeys kv.1 kv.2) := by
  intro us
  induction us with
  | nil => intro p; simp
  | cons kv us ih =>
    intro p
    rw [List.foldl_cons, ih]
    have hcong : (fun kv' : String × JVal =>
        notifySubscribers (autoPersist p.1 kv.1 kv.2).1 kv'.1 kv'.2
            (jsGetD olds kv'.1 .undefined) ++
          persistEvs (autoPersist p.1 kv.1 kv.2).1.persistedKeys
            kv'.1 kv'.2) =
        (fun kv' : String × JVal =>
          notifySubscribers p.1 kv'.1 kv'.2 (jsGetD olds kv'.1 .undefined) ++
            persistEvs p.1.persistedKeys kv'.1 kv'.2) := by
      funext kv'
      rw [notifySubscribers_congr (autoPersist p.1 kv.1 kv.2).1 p.1 kv'.1
          kv'.2 (jsGetD olds kv'.1 .undefined)
          (autoPersist_fst_subscribers p.1 kv.1 kv.2)
          (autoPersist_fst_state p.1 kv.1 kv.2),
        autoPersist_fst_persistedKeys]
    rw [hcong, autoPersist_snd, List.flatMap_cons]
    simp [List.append_assoc]

end StateManager


/-- Map distributes over flatMap chunks. -/
theorem map_over_flatMap {α β γ : Type} (g : β → γ) (f : α → List β) :
    ∀ l : List α, (l.flatMap f).map g = l.flatMap (fun x => (f x).map g) := by
  intro l
  induction l with
  | nil => rfl
  | cons x rest ih => simp [List.flatMap_cons, ih]

/-- flatMap congruence on members. -/
theorem flatMap_congr_mem {α β : Type} (l : List α) (f g : α → List β)
    (h : ∀ x ∈ l, f x = g x) : l.flatMap f = l.flatMap g := by
  induction l with
  | nil => rfl
  | cons x rest ih =>
    rw [List.flatMap_cons, List.flatMap_cons, h x (List.mem_cons_self _ _),
      ih (fun y hy => h y (List.mem_cons_of_mem _ hy))]

/-- A member's key is found. -/
theorem jsHas_of_mem {α : Type} (l : List (String × α)) (kv : String × α)
    (h : kv ∈ l) : jsHas l kv.1 = true := by
  induction l with
  | nil => simp at h
  | cons p rest ih =>
    rcases List.mem_cons.mp h with he | hm
    · subst he
      simp
    · simp [ih hm]

namespace StateManager

/-- Componentwise equality of managers. -/
theorem ext_fields (a b : StateManager)
    (h1 : a.state = b.state) (h2 : a.subscribers = b.subscribers)
    (h3 : a.history = b.history) (h4 : a.maxHistorySize = b.maxHistorySize)
    (h5 : a.sensitiveKeys = b.sensitiveKeys)
    (h6 : a.persistedKeys = b.persistedKeys) (h7 : a.storage = b.storage)
    (h8 : a.now = b.now) : a = b := by
  cases a
  cases b
  simp only at h1 h2 h3 h4 h5 h6 h7 h8
  subst h1 h2 h3 h4 h5 h6 h7 h8
  rfl

/-! Component characterizations of `batchUpdate`. -/

theorem batchUpdate_fst_state (s : StateManager)
    (us : List (String × JVal)) :
    (batchUpdate s us).1.state =
      us.foldl (fun st kv => jsSet st kv.1 kv.2) s.state := by
  simp only [batchUpdate]
  rw [notifFold_fst_state, mutFold_state]

theorem batchUpdate_fst_subscribers (s : StateManager)
    (us : List (String × JVal)) :
    (batchUpdate s us).1.subscribers = s.subscribers := by
  simp only [batchUpdate]
  rw [notifFold_fst_subscribers, mutFold_subscribers]

theorem batchUpdate_fst_maxHistorySize (s : StateManager)
    (us : List (String × JVal)) :
    (batchUpdate s us).1.maxHistorySize = s.maxHistorySize := by
  simp only [batchUpdate]
  rw [notifFold_fst_maxHistorySize, mutFold_maxHistorySize]

theorem batchUpdate_fst_sensitiveKeys (s : StateManager)
    (us : List (String × JVal)) :
    (batchUpdate s us).1.sensitiveKeys = s.sensitiveKeys := by
  simp only [batchUpdate]
  rw [notifFold_fst_sensitiveKeys, mutFold_sensitiveKeys]

theorem batchUpdate_fst_persistedKeys (s : StateManager)
    (us : List (String × JVal)) :
    (batchUpdate s us).1.persistedKeys = s.persistedKeys := by
  simp only [batchUpdate]
  rw [notifFold_fst_persistedKeys, mutFold_persistedKeys]

theorem batchUpdate_fst_now (s : StateManager) (us : List (String × JVal)) :
    (batchUpdate s us).1.now = s.now + us.length := by
  simp only [batchUpdate]
  rw [notifFold_fst_now, mutFold_now]

theorem batchUpdate_fst_history (s : StateManager)
    (us : List (String × JVal)) :
    (batchUpdate s us).1.history =
      (batchEntries (us.map fun kv => (kv.1, jsGet s.state kv.1)) us
        s.now).foldl (fun h e => (e :: h).take s.maxHistorySize)
        s.history := by
  simp only [batchUpdate]
  rw [notifFold_fst_history, mutFold_history]

theorem batchUpdate_fst_storage (s : StateManager)
    (us : List (String × JVal)) :
    (batchUpdate s us).1.storage =
      us.foldl (fun stor kv =>
        if s.persistedKeys.contains kv.1 then
          jsSet stor ("pos_state_" ++ kv.1)
            ((stringifyVal kv.2).getD "undefined")
        else stor) s.storage := by
  simp only [batchUpdate]
  rw [notifFold_fst_storage, mutFold_persistedKeys, mutFold_storage]

/-- The stripped trace of a `batchUpdate`. -/
theorem batchUpdate_snd_strip (s : StateManager)
    (us : List (String × JVal)) :
    (batchUpdate s us).2.map stripSnap =
      us.flatMap (fun kv =>
        strippedNotify s.subscribers kv.1 kv.2
          (jsGetD (us.map fun y => (y.1, jsGet s.state y.1)) kv.1 .undefined) ++
        persistEvs s.persistedKeys kv.1 kv.2) := by
  simp only [batchUpdate]
  rw [notifFold_snd]
  rw [List.nil_append, map_over_flatMap]
  apply flatMap_congr_mem
  intro kv _
  rw [List.map_append, notifySubscribers_strip, persistEvs_strip,
    mutFold_subscribers, mutFold_persistedKeys]

/-- Every wildcard snapshot of a `batchUpdate` trace is the final state. -/
theorem batchUpdate_snaps (s : StateManager) (us : List (String × JVal)) :
    ∀ snap ∈ wildcardSnaps (batchUpdate s us).2,
      snap = (batchUpdate s us).1.state := by
  have hstate : (batchUpdate s us).1.state =
      (us.foldl (fun acc kv =>
        addToHistory { acc with state := jsSet acc.state kv.1 kv.2 }
          kv.1 (jsGetD (us.map fun kv => (kv.1, jsGet s.state kv.1))
            kv.1 .undefined) kv.2) s).state := by
    simp only [batchUpdate]
    rw [notifFold_fst_state]
  intro snap hsnap
  rw [hstate]
  simp only [batchUpdate] at hsnap
  rw [notifFold_snd, List.nil_append] at hsnap
  refine wildcardSnaps_flatMap us _ _ ?_ snap hsnap
  intro kv _ sn hsn
  rw [wildcardSnaps_append, wildcardSnaps_persistEvs, List.append_nil] at hsn
  exact wildcardSnaps_notify _ _ _ _ sn hsn

end StateManager


namespace StateManager

/-- Shifting the accumulated trace out of the `setState` fold. -/
theorem setFold_shift : ∀ (l : List (String × JVal))
    (p : StateManager × List Ev),
    l.foldl (fun acc kv =>
        ((setState acc.1 kv.1 kv.2).1, acc.2 ++ (setState acc.1 kv.1 kv.2).2))
      p =
      ((l.foldl (fun acc kv =>
          ((setState acc.1 kv.1 kv.2).1,
            acc.2 ++ (setState acc.1 kv.1 kv.2).2)) (p.1, [])).1,
        p.2 ++ (l.foldl (fun acc kv =>
          ((setState acc.1 kv.1 kv.2).1,
            acc.2 ++ (setState acc.1 kv.1 kv.2).2)) (p.1, [])).2)
  | [], p => by simp
  | kv :: l, p => by
    have h1 := setFold_shift l
      ((setState p.1 kv.1 kv.2).1, p.2 ++ (setState p.1 kv.1 kv.2).2)
    have h2 := setFold_shift l
      ((setState p.1 kv.1 kv.2).1, [] ++ (setState p.1 kv.1 kv.2).2)
    simp only [List.foldl_cons]
    rw [h1, h2]
    simp [List.append_assoc]

/-- One step of the `setState` sequence, with its trace split off. -/
theorem setStateMany_cons (s : StateManager) (kv : String × JVal)
    (rest : List (String × JVal)) :
    setStateMany s (kv :: rest) =
      ((setStateMany (setState s kv.1 kv.2).1 rest).1,
        (setState s kv.1 kv.2).2 ++
          (setStateMany (setState s kv.1 kv.2).1 rest).2) := by
  unfold setStateMany
  simp only [List.foldl_cons]
  rw [setFold_shift rest
    ((setState s kv.1 kv.2).1, [] ++ (setState s kv.1 kv.2).2)]
  simp

/-- An effective `setState` on one key does not move the values of other
keys. -/
theorem setState_other_keys (s : StateManager) (kv : String × JVal)
    (rest : List (String × JVal)) (hk : kv.1 ∉ rest.map Prod.fst)
    (heff : deepEqual (jsGet s.state kv.1) kv.2 = false) :
    ∀ kv' ∈ rest,
      jsGet (setState s kv.1 kv.2).1.state kv'.1 = jsGet s.state kv'.1 := by
  intro kv' h'
  rw [setState_fst_state s kv.1 kv.2 heff, jsGet_eq_jsGetD, jsGet_eq_jsGetD]
  apply jsGetD_jsSet_ne
  intro he
  exact hk (he ▸ List.mem_map.mpr ⟨kv', h', rfl⟩)

/-- Peeling the first pair off a `batchUpdate`: the final manager is the
one reached by an effective `setState` followed by the batch of the
rest. -/
theorem batchUpdate_cons_fst (s : StateManager) (kv : String × JVal)
    (rest : List (String × JVal)) (hk : kv.1 ∉ rest.map Prod.fst)
    (heff : deepEqual (jsGet s.state kv.1) kv.2 = false) :
    (batchUpdate s (kv :: rest)).1 =
      (batchUpdate (setState s kv.1 kv.2).1 rest).1 := by
  have hstate := setState_fst_state s kv.1 kv.2 heff
  apply ext_fields
  · rw [batchUpdate_fst_state, batchUpdate_fst_state, List.foldl_cons,
      hstate]
  · rw [batchUpdate_fst_subscribers, batchUpdate_fst_subscribers,
      setState_fst_subscribers]
  · -- history
    rw [batchUpdate_fst_history, batchUpdate_fst_history,
      setState_fst_maxHistorySize, setState_fst_now s kv.1 kv.2 heff,
      setState_fst_history s kv.1 kv.2 heff]
    have hhead : jsGetD ((kv :: rest).map fun y => (y.1, jsGet s.state y.1))
        kv.1 .undefined = jsGet s.state kv.1 := by
      rw [jsGetD_map_fst, if_pos (jsHas_of_mem _ kv (List.mem_cons_self _ _))]
    have htail : batchEntries
        ((kv :: rest).map fun y => (y.1, jsGet s.state y.1)) rest
          (s.now + 1) =
        batchEntries (rest.map fun y =>
          (y.1, jsGet (setState s kv.1 kv.2).1.state y.1)) rest
          (s.now + 1) := by
      apply batchEntries_congr
      intro kv' h'
      rw [jsGetD_map_fst, jsGetD_map_fst,
        if_pos (jsHas_of_mem _ kv' (List.mem_cons_of_mem _ h')),
        if_pos (jsHas_of_mem _ kv' h'),
        setState_other_keys s kv rest hk heff kv' h']
    rw [batchEntries_cons, List.foldl_cons, hhead, htail]
  · rw [batchUpdate_fst_maxHistorySize, batchUpdate_fst_maxHistorySize,
      setState_fst_maxHistorySize]
  · rw [batchUpdate_fst_sensitiveKeys, batchUpdate_fst_sensitiveKeys,
      setState_fst_sensitiveKeys]
  · rw [batchUpdate_fst_persistedKeys, batchUpdate_fst_persistedKeys,
      setState_fst_persistedKeys]
  · rw [batchUpdate_fst_storage, batchUpdate_fst_storage, List.foldl_cons,
      setState_fst_storage s kv.1 kv.2 heff, setState_fst_persistedKeys]
  · rw [batchUpdate_fst_now, batchUpdate_fst_now,
      setState_fst_now s kv.1 kv.2 heff]
    simp [List.length_cons]
    omega

/-- Peeling the first pair off a `batchUpdate`: the stripped trace is the
effective `setState`'s stripped trace followed by the rest's. -/
theorem batchUpdate_cons_snd_strip (s : StateManager) (kv : String × JVal)
    (rest : List (String × JVal)) (hk : kv.1 ∉ rest.map Prod.fst)
    (heff : deepEqual (jsGet s.state kv.1) kv.2 = false) :
    (batchUpdate s (kv :: rest)).2.map stripSnap =
      (setState s kv.1 kv.2).2.map stripSnap ++
        (batchUpdate (setState s kv.1 kv.2).1 rest).2.map stripSnap := by
  rw [batchUpdate_snd_strip, batchUpdate_snd_strip,
    setState_snd_strip s kv.1 kv.2 heff, List.flatMap_cons]
  congr 1
  · congr 1
    rw [jsGetD_map_fst, if_pos (jsHas_of_mem _ kv (List.mem_cons_self _ _))]
  · apply flatMap_congr_mem
    intro kv' h'
    rw [setState_fst_subscribers, setState_fst_persistedKeys,
      jsGetD_map_fst, jsGetD_map_fst,
      if_pos (jsHas_of_mem _ kv' (List.mem_cons_of_mem _ h')),
      if_pos (jsHas_of_mem _ kv' h'),
      setState_other_keys s kv rest hk heff kv' h']

/-- The amended equivalence: with distinct keys and every pair actually
changing its key, `batchUpdate` and the `setState` sequence agree on the
final manager and on all events except the wildcard snapshots. -/
theorem batchUpdate_eq_setStateMany : ∀ (us : List (String × JVal))
    (s : StateManager), (us.map Prod.fst).Nodup →
    (∀ kv ∈ us, deepEqual (jsGet s.state kv.1) kv.2 = false) →
    (batchUpdate s us).1 = (setStateMany s us).1 ∧
    (batchUpdate s us).2.map stripSnap = (setStateMany s us).2.map stripSnap
  | [], _, _, _ => ⟨rfl, rfl⟩
  | kv :: rest, s, hnd, heff => by
    rw [List.map_cons] at hnd
    have hnd' := List.nodup_cons.mp hnd
    have hk : kv.1 ∉ rest.map Prod.fst := hnd'.1
    have hndr : (rest.map Prod.fst).Nodup := hnd'.2
    have heff0 : deepEqual (jsGet s.state kv.1) kv.2 = false :=
      heff kv (List.mem_cons_self _ _)
    have heffr : ∀ kv' ∈ rest,
        deepEqual (jsGet (setState s kv.1 kv.2).1.state kv'.1) kv'.2 =
          false := by
      intro kv' h'
      rw [setState_other_keys s kv rest hk heff0 kv' h']
      exact heff kv' (List.mem_cons_of_mem _ h')
    obtain ⟨ih1, ih2⟩ :=
      batchUpdate_eq_setStateMany rest (setState s kv.1 kv.2).1 hndr heffr
    constructor
    · rw [batchUpdate_cons_fst s kv rest hk heff0, ih1, setStateMany_cons]
    · rw [batchUpdate_cons_snd_strip s kv rest hk heff0, ih2,
        setStateMany_cons]
      rw [List.map_append]

end StateManager


/-- A manager already holding `a = 1`, with an `a` subscriber, on which
`batchUpdate {a: 1}` and `setState('a', 1)` behave differently. -/
def cexSM : StateManager :=
  { state := [("a", .num 1)], subscribers := [("a", [⟨5, false⟩])],
    history := [], maxHistorySize := 50, sensitiveKeys := [],
    persistedKeys := [], storage := [], now := 0 }

/-- C2 counterexample: `batchUpdate` performs no deep-equality skip, so a
batch whose value is deep-equal to the stored one appends a history entry
and notifies its subscriber, while the equivalent `setState` sequence is
a complete no-op — the claimed equivalence of history and notifications
fails at this input. -/
theorem C2_batchUpdate_not_equivalent :
    (StateManager.batchUpdate cexSM [("a", .num 1)]).1.history.length = 1 ∧
    (StateManager.setStateMany cexSM [("a", .num 1)]).1.history.length = 0 ∧
    (StateManager.batchUpdate cexSM [("a", .num 1)]).2.length = 1 ∧
    (StateManager.setStateMany cexSM [("a", .num 1)]).2.length = 0 := by
  refine ⟨?_, ?_, ?_, ?_⟩ <;> rfl

/-- C2 (amended): provided every batched pair's value is not deep-equal
to the key's current value (otherwise `batchUpdate`, which skips no
deep-equality check, appends history entries and notifies where the
`setState` sequence does nothing) and the batched keys are distinct (as
the keys of a JavaScript object are), `batchUpdate` produces the same
final manager — state, history, persistence — as the `setState` sequence
(first conjunct) and the same event trace up to the full-state snapshots
passed to wildcard subscribers (second conjunct); and every wildcard
subscriber invoked during the batch observes all batched keys already
updated: its snapshot is the final batch state (third conjunct). -/
theorem C2_batchUpdate_equiv_amended (s : StateManager)
    (us : List (String × JVal)) (hnd : (us.map Prod.fst).Nodup)
    (heff : ∀ kv ∈ us, deepEqual (jsGet s.state kv.1) kv.2 = false) :
    (StateManager.batchUpdate s us).1 = (StateManager.setStateMany s us).1 ∧
    (StateManager.batchUpdate s us).2.map stripSnap =
      (StateManager.setStateMany s us).2.map stripSnap ∧
    (∀ snap ∈ wildcardSnaps (StateManager.batchUpdate s us).2,
      snap = (StateManager.batchUpdate s us).1.state) :=
  ⟨(StateManager.batchUpdate_eq_setStateMany us s hnd heff).1,
    (StateManager.batchUpdate_eq_setStateMany us s hnd heff).2,
    StateManager.batchUpdate_snaps s us⟩

/-- Witness for the amended C2 at a concrete manager (per-key and
wildcard subscribers present) and a two-key batch. -/
theorem C2_batchUpdate_equiv_amended_witness :
    (StateManager.batchUpdate sampleSM [("x", .num 1), ("y", .num 2)]).1 =
      (StateManager.setStateMany sampleSM
        [("x", .num 1), ("y", .num 2)]).1 ∧
    (StateManager.batchUpdate sampleSM
        [("x", .num 1), ("y", .num 2)]).2.map stripSnap =
      (StateManager.setStateMany sampleSM
        [("x", .num 1), ("y", .num 2)]).2.map stripSnap ∧
    (∀ snap ∈ wildcardSnaps
        (StateManager.batchUpdate sampleSM
          [("x", .num 1), ("y", .num 2)]).2,
      snap = (StateManager.batchUpdate sampleSM
        [("x", .num 1), ("y", .num 2)]).1.state) :=
  C2_batchUpdate_equiv_amended sampleSM [("x", .num 1), ("y", .num 2)]
    (by decide) (by decide)
